import Mathlib

/-!
Shallow embedding of the tic-tac-toe search engine
(`game.py`, `minimax.py`, `evaluators.py`, `mcts.py`).

Modelling conventions:
* Python floats that only ever hold exact dyadic values (0, 0.5, 1.0 and
  clamped probabilities) are modelled as `ℚ`.
* `random.Random` is modelled as a deterministic stream of naturals plus a
  position; `random.choice` reads the next stream value modulo the list
  length.  All theorems are proved for every stream.
* Transcendental float computations (`math.exp`, `math.sqrt`/`math.log` in
  UCB1) and the SHA-256 key hash have no exact shallow embedding; they are
  carried as explicit function parameters of the evaluator/agent
  configuration, and every theorem holds for all instantiations.
-/

/-- Cell values of the board: `"X"`, `"O"`, `"."` in the source. -/
inductive Cell where
  | X : Cell
  | O : Cell
  | empty : Cell
deriving DecidableEq, Repr

/-- The two players (the source checks `player in ("X", "O")` at construction). -/
inductive Player where
  | X : Player
  | O : Player
deriving DecidableEq, Repr

/-- The mark a player puts on the board. -/
def Player.cell : Player → Cell
  | Player.X => Cell.X
  | Player.O => Cell.O

/-- Outcome of `terminal_outcome`: a winner, a draw, or `None`. -/
inductive Outcome where
  | win : Player → Outcome
  | draw : Outcome
deriving DecidableEq, Repr

/-- `GameState`: a board of cells plus the player to move.  The Python
constructor enforces `len(board) == 9`; we carry that as a hypothesis where
it matters. -/
structure GameState where
  board : List Cell
  player : Player
deriving DecidableEq, Repr

/-- `initial_state()`: empty 9-cell board, X to move. -/
def initial_state : GameState :=
  { board := List.replicate 9 Cell.empty, player := Player.X }

/-- `other_player`. -/
def other_player : Player → Player
  | Player.X => Player.O
  | Player.O => Player.X

/-- `WIN_LINES` from `game.py`. -/
def WIN_LINES : List (Nat × Nat × Nat) :=
  [(0, 1, 2), (3, 4, 5), (6, 7, 8), (0, 3, 6), (1, 4, 7), (2, 5, 8), (0, 4, 8), (2, 4, 6)]

/-- `legal_moves(state)`: indices of empty cells, in enumeration order. -/
def legal_moves (state : GameState) : List Nat :=
  (state.board.enum.filter (fun ic => ic.2 = Cell.empty)).map (fun ic => ic.1)

/-- Cell lookup `board[i]` (boards in reachable states have length 9, so the
default is never consulted under the length hypothesis). -/
def cellAt (board : List Cell) (i : Nat) : Cell :=
  board.getD i Cell.empty

/-- The in-range, empty-cell core of `apply_move`: set the cell to the mover
and flip the mover. -/
def setMove (state : GameState) (move : Nat) : GameState :=
  { board := state.board.set move state.player.cell, player := other_player state.player }

/-- `apply_move(state, move)`: raises (modelled as `Except.error`) on an
out-of-range index or a non-empty target cell, else returns the new state. -/
def apply_move (state : GameState) (move : Int) : Except String GameState :=
  if move < 0 ∨ move > 8 then
    Except.error "Invalid move index"
  else if cellAt state.board move.toNat ≠ Cell.empty then
    Except.error "Cell is not empty"
  else
    Except.ok (setMove state move.toNat)

/-- `winner(board)`: first winning line's mark, if any. -/
def winner (board : List Cell) : Option Player :=
  (WIN_LINES.find? (fun l =>
      cellAt board l.1 ≠ Cell.empty ∧ cellAt board l.1 = cellAt board l.2.1 ∧
        cellAt board l.1 = cellAt board l.2.2)).bind
    (fun l =>
      match cellAt board l.1 with
      | Cell.X => some Player.X
      | Cell.O => some Player.O
      | Cell.empty => none)

/-- `terminal_outcome(state)`. -/
def terminal_outcome (state : GameState) : Option Outcome :=
  match winner state.board with
  | some p => some (Outcome.win p)
  | none => if Cell.empty ∈ state.board then none else some Outcome.draw

/-- `terminal_value(state, perspective)`. -/
def terminal_value (state : GameState) (perspective : Player) : Option ℚ :=
  match terminal_outcome state with
  | none => none
  | some Outcome.draw => some (1/2)
  | some (Outcome.win p) => some (if p = perspective then 1 else 0)

/-- `state_key(state)`: the board marks followed by `:player`. -/
def Cell.char : Cell → Char
  | Cell.X => 'X'
  | Cell.O => 'O'
  | Cell.empty => '.'

/-- Canonical string key of a state (`state_key`). -/
def state_key (state : GameState) : String :=
  String.mk (state.board.map Cell.char) ++ ":" ++
    String.mk [(state.player.cell).char]

/-- Number of empty cells, the quantity each move strictly decreases. -/
def countEmpty (board : List Cell) : Nat :=
  board.count Cell.empty

/-- Fuel-indexed minimax recursion.  The fuel only serves Lean's
termination checker; `minimax_value` supplies fuel bounding the number of
empty cells, which the recursion (one fewer empty cell per ply) never
exhausts. -/
def minimaxGo : Nat → GameState → Player → ℚ
  | 0, state, perspective => (terminal_value state perspective).getD (1/2)
  | fuel + 1, state, perspective =>
    match terminal_value state perspective with
    | some v => v
    | none =>
      let child_values :=
        (legal_moves state).map (fun m => minimaxGo fuel (setMove state m) perspective)
      if state.player = perspective then
        child_values.foldl max 0
      else
        child_values.foldl min 1

/-- `minimax_value(state, perspective)` from `minimax.py` (the `lru_cache`
is a pure-function memoization and does not change the value). -/
def minimax_value (state : GameState) (perspective : Player) : ℚ :=
  minimaxGo (countEmpty state.board) state perspective

/-! ## Random source

`random.Random` is modelled as a deterministic stream of naturals plus a
position; `random.choice` consumes one stream value and picks by index.
Every theorem below holds for every stream, so nothing depends on the
concrete pseudo-random sequence. -/

/-- Deterministic model of a seeded `random.Random` instance. -/
structure Rng where
  stream : Nat → Nat
  pos : Nat

/-- Draw the next raw value from the stream. -/
def Rng.next (r : Rng) : Nat × Rng :=
  (r.stream r.pos, { r with pos := r.pos + 1 })

/-- `random.choice(xs)`.  The source only calls it on nonempty lists
(Python raises on an empty one); the default is never consulted there. -/
def rngChoice {α : Type} (xs : List α) (dflt : α) (r : Rng) : α × Rng :=
  let n := r.next
  (xs.getD (n.1 % xs.length) dflt, n.2)

/-! ## Evaluators (`evaluators.py`) -/

/-- `RandomRolloutEvaluator`: just a private seeded random source. -/
structure RandomRolloutEvaluator where
  rng : Rng

/-- The `while True` playout loop of `RandomRolloutEvaluator.evaluate`.
Each pass fills one empty cell, so `fuel := board length` is never
exhausted; the fuel-out value only serves the termination checker. -/
def rolloutGo : Nat → GameState → Player → Rng → ℚ × Rng
  | 0, _, _, r => (1/2, r)
  | fuel + 1, sim, root_player, r =>
    match terminal_outcome sim with
    | some Outcome.draw => (1/2, r)
    | some (Outcome.win p) => (if p = root_player then 1 else 0, r)
    | none =>
      let c := rngChoice (legal_moves sim) 0 r
      rolloutGo fuel (setMove sim c.1) root_player c.2

/-- `RandomRolloutEvaluator.evaluate`. -/
def RandomRolloutEvaluator.evaluate (e : RandomRolloutEvaluator) (state : GameState)
    (root_player : Player) : ℚ × RandomRolloutEvaluator :=
  match terminal_value state root_player with
  | some v => (v, e)
  | none =>
    let res := rolloutGo state.board.length state root_player e.rng
    (res.1, { rng := res.2 })

/-- String form of a player, as used in cache keys. -/
def Player.str : Player → String
  | Player.X => "X"
  | Player.O => "O"

/-- Statistics dictionary of `LLMPositionEvaluator`. -/
structure LLMStats where
  cache_hits : Nat
  cache_misses : Nat
  api_calls : Nat
  fallback_to_heuristic : Nat
  guided_rollouts : Nat
deriving DecidableEq, Repr

/-- The fresh statistics dictionary. -/
def LLMStats.init : LLMStats :=
  { cache_hits := 0, cache_misses := 0, api_calls := 0,
    fallback_to_heuristic := 0, guided_rollouts := 0 }

/-- Configuration of `LLMPositionEvaluator`.  Floating-point
transcendentals and external effects have no exact shallow embedding, so
they are explicit fields, and every theorem holds for all instantiations:
`exp` models `math.exp` in the logistic squash, `keyStream` models the
stream of draws of the `random.Random` seeded from the SHA-256 hash of the
cache key, and `api` models the parsed probability (or any transport or
parse failure) of the OpenAI call. -/
structure LLMConfig where
  provider : String
  model : String
  api_key : String
  heuristic_weight : ℚ
  rollout_samples : Nat
  exp : ℚ → ℚ
  keyStream : String → Nat → Nat
  api : GameState → Player → Except String ℚ

/-- `LLMPositionEvaluator`: configuration, cache (an insertion-ordered
dictionary, modelled as an association list) and statistics. -/
structure LLMPositionEvaluator where
  config : LLMConfig
  cache : List (String × ℚ)
  stats : LLMStats

/-- `_clamp(value)` with the default bounds 0 and 1. -/
def _clamp (value : ℚ) : ℚ :=
  max 0 (min 1 value)

/-- Dictionary update `cache[key] = value`: replace an existing binding,
else append. -/
def dictInsert (cache : List (String × ℚ)) (key : String) (value : ℚ) :
    List (String × ℚ) :=
  if (cache.lookup key).isSome then
    cache.map (fun kv => if kv.1 = key then (key, value) else kv)
  else
    cache ++ [(key, value)]

/-- The three cells of a winning line. -/
def lineMarks (board : List Cell) (l : Nat × Nat × Nat) : List Cell :=
  [cellAt board l.1, cellAt board l.2.1, cellAt board l.2.2]

/-- `_count_open_lines(board, player, player_marks)` (the source repeats the
`WIN_LINES` literal locally). -/
def _count_open_lines (board : List Cell) (player : Player) (player_marks : Nat) : Nat :=
  (WIN_LINES.filter (fun l =>
    (lineMarks board l).count (other_player player).cell = 0 ∧
      (lineMarks board l).count player.cell = player_marks)).length

/-- `_winning_moves_for_current_player(state, legal)`. -/
def _winning_moves_for_current_player (state : GameState) (moves : List Nat) : List Nat :=
  moves.filter (fun m => terminal_outcome (setMove state m) = some (Outcome.win state.player))

/-- `_rollout_policy_move(state, rng)`: immediate win, else a move that does
not hand the opponent an immediate win, preferring center then corners. -/
def _rollout_policy_move (state : GameState) (r : Rng) : Nat × Rng :=
  let legal := legal_moves state
  let winning := _winning_moves_for_current_player state legal
  if winning ≠ [] then rngChoice winning 0 r
  else
    let safe_moves := legal.filter (fun m =>
      let next_state := setMove state m
      _winning_moves_for_current_player next_state (legal_moves next_state) = [])
    let candidate_moves := if safe_moves ≠ [] then safe_moves else legal
    if 4 ∈ candidate_moves then (4, r)
    else
      let corners := candidate_moves.filter (fun m => m ∈ [0, 2, 6, 8])
      if corners ≠ [] then rngChoice corners 0 r
      else rngChoice candidate_moves 0 r

/-- The `while True` loop of `_guided_rollout`; as in `rolloutGo` the fuel
only serves termination. -/
def _guided_rolloutGo : Nat → GameState → Player → Rng → ℚ × Rng
  | 0, _, _, r => (1/2, r)
  | fuel + 1, sim, root_player, r =>
    match terminal_outcome sim with
    | some Outcome.draw => (1/2, r)
    | some (Outcome.win p) => (if p = root_player then 1 else 0, r)
    | none =>
      let c := _rollout_policy_move sim r
      _guided_rolloutGo fuel (setMove sim c.1) root_player c.2

/-- The accumulation loop of `_guided_rollout_average`: `rollout_samples`
guided rollouts from the same state sharing one random source. -/
def guidedTotal : Nat → GameState → Player → Rng → ℚ × Rng
  | 0, _, _, r => (0, r)
  | n + 1, state, root_player, r =>
    let one := _guided_rolloutGo state.board.length state root_player r
    let rest := guidedTotal n state root_player one.2
    (one.1 + rest.1, rest.2)

/-- `_guided_rollout_average(state, root_player, key)`. -/
def _guided_rollout_average (e : LLMPositionEvaluator) (state : GameState)
    (root_player : Player) (key : String) : ℚ × LLMPositionEvaluator :=
  if e.config.rollout_samples = 0 then (1/2, e)
  else
    let rng0 : Rng := { stream := e.config.keyStream key, pos := 0 }
    let total := guidedTotal e.config.rollout_samples state root_player rng0
    (total.1 / e.config.rollout_samples,
      { e with stats := { e.stats with
          guided_rollouts := e.stats.guided_rollouts + e.config.rollout_samples } })

/-- `_heuristic_value(state, root_player, key)`.  The float literals are the
exact decimal fractions written in the source. -/
def _heuristic_value (e : LLMPositionEvaluator) (state : GameState)
    (root_player : Player) (key : String) : ℚ × LLMPositionEvaluator :=
  let board := state.board
  let opp := other_player root_player
  let score1 : ℚ := if state.player = root_player then 25/100 else -(25/100)
  let score2 : ℚ := score1 +
    (if cellAt board 4 = root_player.cell then 65/100
     else if cellAt board 4 = opp.cell then -(65/100) else 0)
  let corners : List Nat := [0, 2, 6, 8]
  let root_corners := (corners.filter (fun i => cellAt board i = root_player.cell)).length
  let opp_corners := (corners.filter (fun i => cellAt board i = opp.cell)).length
  let score3 : ℚ := score2 + 20/100 * ((root_corners : ℚ) - (opp_corners : ℚ))
  let root_two := _count_open_lines board root_player 2
  let opp_two := _count_open_lines board opp 2
  let root_one := _count_open_lines board root_player 1
  let opp_one := _count_open_lines board opp 1
  let score4 : ℚ := score3 + 95/100 * ((root_two : ℚ) - (opp_two : ℚ))
  let score5 : ℚ := score4 + 18/100 * ((root_one : ℚ) - (opp_one : ℚ))
  let score6 : ℚ := score5 + (if state.player = root_player ∧ 0 < root_two then 75/100 else 0)
  let score : ℚ := score6 - (if state.player ≠ root_player ∧ 0 < opp_two then 75/100 else 0)
  let base_probability : ℚ := 1 / (1 + e.config.exp (-score))
  let ra := _guided_rollout_average e state root_player key
  let blended : ℚ := e.config.heuristic_weight * base_probability +
    (1 - e.config.heuristic_weight) * ra.1
  let calibrated : ℚ := 1/2 + (blended - 1/2) * (85/100)
  (_clamp calibrated, ra.2)

/-- The cache key `f"{provider}|{model}|{root_player}|{state_key(state)}"`. -/
def cacheKey (cfg : LLMConfig) (state : GameState) (root_player : Player) : String :=
  cfg.provider ++ "|" ++ cfg.model ++ "|" ++ root_player.str ++ "|" ++ state_key state

/-- `LLMPositionEvaluator.evaluate(state, root_player)`. -/
def LLMPositionEvaluator.evaluate (e : LLMPositionEvaluator) (state : GameState)
    (root_player : Player) : ℚ × LLMPositionEvaluator :=
  match terminal_value state root_player with
  | some v => (v, e)
  | none =>
    let key := cacheKey e.config state root_player
    match e.cache.lookup key with
    | some v =>
      (v, { e with stats := { e.stats with cache_hits := e.stats.cache_hits + 1 } })
    | none =>
      let e1 : LLMPositionEvaluator :=
        { e with stats := { e.stats with cache_misses := e.stats.cache_misses + 1 } }
      let res : ℚ × LLMPositionEvaluator :=
        if e1.config.provider = "openai" ∧ e1.config.api_key ≠ "" then
          let e2 : LLMPositionEvaluator :=
            { e1 with stats := { e1.stats with api_calls := e1.stats.api_calls + 1 } }
          match e2.config.api state root_player with
          | Except.ok p => (_clamp p, e2)
          | Except.error _ =>
            let e3 : LLMPositionEvaluator := { e2 with stats :=
              { e2.stats with fallback_to_heuristic := e2.stats.fallback_to_heuristic + 1 } }
            _heuristic_value e3 state root_player key
        else
          let e2 : LLMPositionEvaluator :=
            if e1.config.provider = "openai" ∧ e1.config.api_key = "" then
              { e1 with stats :=
                { e1.stats with fallback_to_heuristic := e1.stats.fallback_to_heuristic + 1 } }
            else e1
          _heuristic_value e2 state root_player key
      (res.1, { res.2 with cache := dictInsert res.2.cache key res.1 })

/-! ## MCTS (`mcts.py`)

The mutable search tree with parent pointers is modelled as an immutable
tree; backpropagation along the parent chain becomes returning the
evaluated value up the recursion.  `children` is a dictionary keyed by
move in insertion order, modelled as an append-ordered list (each child
carries its move, as in the source). -/

/-- `Node` from `mcts.py`.  `__post_init__` fills `untried_moves` with
`legal_moves(state)`; see `Node.new`. -/
inductive Node where
  | mk (state : GameState) (move : Option Nat) (children : List Node)
      (untried_moves : List Nat) (visits : Nat) (value_sum : ℚ)

/-- The state owned by a node. -/
def Node.state : Node → GameState
  | Node.mk s _ _ _ _ _ => s

/-- The move that led to this node (`None` at the root). -/
def Node.move : Node → Option Nat
  | Node.mk _ m _ _ _ _ => m

/-- The explored children, in insertion order. -/
def Node.children : Node → List Node
  | Node.mk _ _ c _ _ _ => c

/-- The not-yet-expanded legal moves. -/
def Node.untried_moves : Node → List Nat
  | Node.mk _ _ _ u _ _ => u

/-- The visit counter. -/
def Node.visits : Node → Nat
  | Node.mk _ _ _ _ v _ => v

/-- The cumulative value sum. -/
def Node.value_sum : Node → ℚ
  | Node.mk _ _ _ _ _ s => s

/-- Node construction (`Node(state=..., move=...)` plus `__post_init__`). -/
def Node.new (state : GameState) (move : Option Nat) : Node :=
  Node.mk state move [] (legal_moves state) 0 0

/-- `Node.is_terminal`. -/
def Node.is_terminal (n : Node) : Prop :=
  terminal_outcome n.state ≠ none

instance (n : Node) : Decidable n.is_terminal := by
  unfold Node.is_terminal; infer_instance

/-- `Node.is_fully_expanded`. -/
def Node.is_fully_expanded (n : Node) : Prop :=
  n.untried_moves = []

instance (n : Node) : Decidable n.is_fully_expanded := by
  unfold Node.is_fully_expanded; infer_instance

/-- `Node.mean_value`. -/
def Node.mean_value (n : Node) : ℚ :=
  if n.visits = 0 then 0 else n.value_sum / n.visits

/-- Agent configuration.  `exploreTerm p c` models the float
`exploration * math.sqrt(log(max(1, p)) / c)`; as a transcendental float
expression it is carried abstractly and every theorem holds for all
instantiations.  The evaluator is any object with an `evaluate` method,
modelled as a state type `σ` with a pure transition `evalFn`. -/
structure MCTSAgent (σ : Type) where
  evalFn : σ → GameState → Player → ℚ × σ
  evaluator : σ
  iterations : Nat
  exploreTerm : Nat → Nat → ℚ
  rng : Rng

/-- The UCB1 score of a child (`ucb` inside `_select_child`); `⊤` is the
`float("inf")` score of an unvisited child. -/
def ucbScore {σ : Type} (a : MCTSAgent σ) (node_player root_player : Player)
    (parent_visits : Nat) (child : Node) : WithTop ℚ :=
  if child.visits = 0 then ⊤
  else
    let root_value := child.value_sum / child.visits
    let exploit := if node_player = root_player then root_value else 1 - root_value
    ((exploit + a.exploreTerm parent_visits child.visits : ℚ) : WithTop ℚ)

/-- The indices (in insertion order) of the children collected in
`best_children` by `_select_child`: those attaining the maximal UCB score. -/
def bestChildIdxs {σ : Type} (a : MCTSAgent σ) (n : Node) (root_player : Player) : List Nat :=
  let score := fun c => ucbScore a n.state.player root_player n.visits c
  let best := ((n.children.map score).max?).getD ⊤
  (n.children.enum.filter (fun ic => score ic.2 = best)).map (fun ic => ic.1)

/-- `_select_child(node, root_player)`, returning the *index* of the chosen
child in insertion order: the maximal-score children are collected and one
is drawn at random, exactly as the source's running-best loop does. -/
def selectChildIdx {σ : Type} (a : MCTSAgent σ) (n : Node) (root_player : Player)
    (r : Rng) : Nat × Rng :=
  rngChoice (bestChildIdxs a n root_player) 0 r

instance : Inhabited Node := ⟨Node.new initial_state none⟩

instance (l : List Node) : Decidable (l = []) :=
  match l with
  | [] => isTrue rfl
  | _ :: _ => isFalse (by simp)

/-- `random.choice` on a nonempty list returns one of its elements. -/
theorem rngChoice_mem {α : Type} (xs : List α) (dflt : α) (r : Rng) (h : xs ≠ []) :
    (rngChoice xs dflt r).1 ∈ xs := by
  have hlen : 0 < xs.length := List.length_pos.mpr h
  have hlt : (Rng.next r).1 % xs.length < xs.length := Nat.mod_lt _ hlen
  show xs.getD ((Rng.next r).1 % xs.length) dflt ∈ xs
  rw [List.getD_eq_getElem _ _ hlt]
  exact List.getElem_mem hlt

/-- Every index in `best_children` is in range. -/
theorem mem_bestChildIdxs_lt {σ : Type} (a : MCTSAgent σ) (n : Node) (root_player : Player)
    {i : Nat} (h : i ∈ bestChildIdxs a n root_player) : i < n.children.length := by
  unfold bestChildIdxs at h
  obtain ⟨⟨j, c⟩, hic, hival⟩ := List.mem_map.mp h
  have hmem := (List.mem_filter.mp hic).1
  have := List.fst_lt_of_mem_enum hmem
  simpa [← hival] using this

/-- `best_children` is nonempty whenever the node has children. -/
theorem bestChildIdxs_ne_nil {σ : Type} (a : MCTSAgent σ) (n : Node) (root_player : Player)
    (h : n.children ≠ []) : bestChildIdxs a n root_player ≠ [] := by
  unfold bestChildIdxs
  dsimp only
  set score := fun c => ucbScore a n.state.player root_player n.visits c with hscore
  have hmapne : n.children.map score ≠ [] := by simpa using h
  obtain ⟨b, hb⟩ : ∃ b, (n.children.map score).max? = some b := by
    cases hmax : (n.children.map score).max? with
    | none => exact absurd (List.max?_eq_none_iff.mp hmax) hmapne
    | some b => exact ⟨b, rfl⟩
  obtain ⟨c, hc, hcb⟩ := List.mem_map.mp (List.max?_mem (fun x y => max_choice x y) hb)
  obtain ⟨i, hi, hci⟩ := List.mem_iff_getElem.mp hc
  have hmem : (i, c) ∈ n.children.enum := by
    rw [List.mk_mem_enum_iff_getElem?]
    simp [hi, hci]
  rw [hb]
  simp only [Option.getD_some, ne_eq, List.map_eq_nil, List.filter_eq_nil]
  push_neg
  exact ⟨(i, c), hmem, by simpa using hcb⟩

/-- The chosen index of `_select_child` is always in range (the method
asserts `node.children` is nonempty). -/
theorem selectChildIdx_lt {σ : Type} (a : MCTSAgent σ) (n : Node) (root_player : Player)
    (r : Rng) (h : n.children ≠ []) : (selectChildIdx a n root_player r).1 < n.children.length := by
  have hne := bestChildIdxs_ne_nil a n root_player h
  have hmem : (selectChildIdx a n root_player r).1 ∈ bestChildIdxs a n root_player :=
    rngChoice_mem _ _ _ hne
  exact mem_bestChildIdxs_lt a n root_player hmem

/-- One MCTS iteration (the body of the `for` loop in `choose_move`):
selection descends while the node is non-terminal, fully expanded and has
children; then at most one expansion; then evaluation from the fixed root
perspective; backpropagation becomes returning the value up the recursion,
adding it at every node on the path. -/
def simulate {σ : Type} (a : MCTSAgent σ) (root_player : Player) :
    Node → Rng → σ → Node × ℚ × Rng × σ := fun node r ev =>
  if h : ¬ node.is_terminal ∧ node.is_fully_expanded ∧ node.children ≠ [] then
    let sel := selectChildIdx a node root_player r
    let child := node.children.getD sel.1 default
    let res := simulate a root_player child sel.2 ev
    (Node.mk node.state node.move (node.children.set sel.1 res.1) node.untried_moves
      (node.visits + 1) (node.value_sum + res.2.1),
      res.2.1, res.2.2.1, res.2.2.2)
  else if ¬ node.is_terminal ∧ node.untried_moves ≠ [] then
    let c := rngChoice node.untried_moves 0 r
    let child0 := Node.new (setMove node.state c.1) (some c.1)
    let ev1 := a.evalFn ev child0.state root_player
    let child := Node.mk child0.state child0.move child0.children child0.untried_moves 1 ev1.1
    (Node.mk node.state node.move (node.children ++ [child])
      (node.untried_moves.erase c.1) (node.visits + 1) (node.value_sum + ev1.1),
      ev1.1, c.2, ev1.2)
  else
    let ev1 := a.evalFn ev node.state root_player
    (Node.mk node.state node.move node.children node.untried_moves
      (node.visits + 1) (node.value_sum + ev1.1), ev1.1, r, ev1.2)
termination_by node => sizeOf node
decreasing_by
  rename_i node rng ev
  have hlt := selectChildIdx_lt a node root_player rng h.2.2
  have hmem : node.children.getD (selectChildIdx a node root_player rng).1 default
      ∈ node.children := by
    rw [List.getD_eq_getElem _ _ hlt]
    exact List.getElem_mem hlt
  have h1 : sizeOf (node.children.getD (selectChildIdx a node root_player rng).1 default)
      < sizeOf node.children := List.sizeOf_lt_of_mem hmem
  have h2 : sizeOf node.children < sizeOf node := by
    cases node with
    | mk s m c u v q =>
      simp only [Node.children, Node.mk.sizeOf_spec]
      omega
  omega

/-- The `for _ in range(self.iterations)` loop of `choose_move`. -/
def searchLoop {σ : Type} (a : MCTSAgent σ) (root_player : Player) :
    Nat → Node → Rng → σ → Node × Rng × σ
  | 0, n, r, ev => (n, r, ev)
  | k + 1, n, r, ev =>
    let res := simulate a root_player n r ev
    searchLoop a root_player k res.1 res.2.2.1 res.2.2.2

/-- `ranked[0]` of the stable descending sort by `(visits, mean_value)`:
the first child attaining the lexicographically greatest key. -/
def bestRanked : List Node → Option Node
  | [] => none
  | c :: rest =>
    match bestRanked rest with
    | none => some c
    | some b =>
      some (if c.visits < b.visits ∨ (c.visits = b.visits ∧ c.mean_value < b.mean_value)
        then b else c)

/-- `MCTSAgent.choose_move(root_state)` (diagnostic `DecisionStats` timing
is an observational side channel and is not modelled; visit counts are read
off the final tree, obtainable as `searchLoop` below). -/
def MCTSAgent.choose_move {σ : Type} (a : MCTSAgent σ) (root_state : GameState) :
    Nat × MCTSAgent σ :=
  let root := Node.new root_state none
  let root_player := root_state.player
  let res := searchLoop a root_player a.iterations root a.rng a.evaluator
  if res.1.children = [] then
    let c := rngChoice (legal_moves root_state) 0 res.2.1
    (c.1, { a with rng := c.2, evaluator := res.2.2 })
  else
    match ((bestRanked res.1.children).getD default).move with
    | some m => (m, { a with rng := res.2.1, evaluator := res.2.2 })
    | none =>
      let c := rngChoice (legal_moves root_state) 0 res.2.1
      (c.1, { a with rng := c.2, evaluator := res.2.2 })

/-- Feeding an agent a sequence of root states, collecting the chosen
moves (the agent's random source and evaluator state carry over). -/
def runAgentSeq {σ : Type} (a : MCTSAgent σ) : List GameState → List Nat
  | [] => []
  | s :: rest =>
    let r := a.choose_move s
    r.1 :: runAgentSeq r.2 rest

/-- Feeding a random-rollout evaluator a sequence of inputs, collecting
the values. -/
def runRolloutSeq (e : RandomRolloutEvaluator) : List (GameState × Player) → List ℚ
  | [] => []
  | q :: rest =>
    let r := e.evaluate q.1 q.2
    r.1 :: runRolloutSeq r.2 rest

/-! ## Game-level lemmas -/

/-- A player's mark is never the empty cell. -/
theorem Player.cell_ne_empty (p : Player) : p.cell ≠ Cell.empty := by
  cases p <;> simp [Player.cell]

/-- Characterization of `legal_moves`: exactly the in-range empty cells. -/
theorem mem_legal_moves (s : GameState) (m : Nat) :
    m ∈ legal_moves s ↔ m < s.board.length ∧ cellAt s.board m = Cell.empty := by
  unfold legal_moves
  constructor
  · intro h
    obtain ⟨⟨i, c⟩, hic, hval⟩ := List.mem_map.mp h
    obtain ⟨hmem, hp⟩ := List.mem_filter.mp hic
    have hc : c = Cell.empty := by simpa using hp
    have hget : s.board[i]? = some c := List.mk_mem_enum_iff_getElem?.mp hmem
    subst hval hc
    have hlt : i < s.board.length := by
      by_contra hge
      rw [List.getElem?_eq_none (Nat.le_of_not_lt hge)] at hget
      exact Option.noConfusion hget
    refine ⟨hlt, ?_⟩
    rw [cellAt, List.getD_eq_getElem?_getD, hget]
    rfl
  · rintro ⟨hlt, hcell⟩
    have hget : s.board[m]? = some Cell.empty := by
      rw [List.getElem?_eq_getElem hlt]
      rw [cellAt, List.getD_eq_getElem?_getD, List.getElem?_eq_getElem hlt] at hcell
      simpa using hcell
    refine List.mem_map.mpr ⟨(m, Cell.empty), List.mem_filter.mpr ⟨?_, by simp⟩, rfl⟩
    exact List.mk_mem_enum_iff_getElem?.mpr hget

/-- `legal_moves` is strictly ascending (hence each index appears once). -/
theorem legal_moves_sorted (s : GameState) : (legal_moves s).Pairwise (· < ·) := by
  have hsub : (legal_moves s).Sublist (List.range s.board.length) := by
    have h1 : ((s.board.enum.filter (fun ic => ic.2 = Cell.empty)).map (fun ic => ic.1)).Sublist
        (s.board.enum.map (fun ic => ic.1)) :=
      List.Sublist.map _ (List.filter_sublist _)
    have h2 : s.board.enum.map (fun ic => ic.1) = List.range s.board.length := by
      simpa using List.enum_map_fst s.board
    rw [h2] at h1
    exact h1
  exact (List.pairwise_lt_range _).sublist hsub

/-- `legal_moves` has no duplicates. -/
theorem legal_moves_nodup (s : GameState) : (legal_moves s).Nodup :=
  (legal_moves_sorted s).imp Nat.ne_of_lt

/-- `legal_moves` is empty exactly when the board has no empty cell. -/
theorem legal_moves_eq_nil_iff (s : GameState) :
    legal_moves s = [] ↔ Cell.empty ∉ s.board := by
  constructor
  · intro h hmem
    obtain ⟨i, hget⟩ := List.mem_iff_getElem?.mp hmem
    have hlt : i < s.board.length := by
      by_contra hge
      rw [List.getElem?_eq_none (Nat.le_of_not_lt hge)] at hget
      exact Option.noConfusion hget
    have : i ∈ legal_moves s := by
      rw [mem_legal_moves]
      exact ⟨hlt, by rw [cellAt, List.getD_eq_getElem?_getD, hget]; rfl⟩
    rw [h] at this
    exact absurd this (List.not_mem_nil i)
  · intro h
    by_contra hne
    obtain ⟨m, hm⟩ := List.exists_mem_of_ne_nil _ hne
    obtain ⟨hlt, hcell⟩ := (mem_legal_moves s m).mp hm
    refine h ?_
    rw [List.mem_iff_getElem?]
    refine ⟨m, ?_⟩
    rw [cellAt, List.getD_eq_getElem?_getD, List.getElem?_eq_getElem hlt] at hcell
    rw [List.getElem?_eq_getElem hlt]
    simpa using hcell

/-- A non-terminal state still has an empty cell. -/
theorem empty_mem_of_nonterminal (s : GameState) (h : terminal_outcome s = none) :
    Cell.empty ∈ s.board := by
  unfold terminal_outcome at h
  cases hw : winner s.board with
  | some p => rw [hw] at h; exact Option.noConfusion h
  | none =>
    rw [hw] at h
    by_contra hmem
    rw [if_neg hmem] at h
    exact Option.noConfusion h

/-- A non-terminal state has at least one legal move. -/
theorem legal_moves_ne_nil_of_nonterminal (s : GameState) (h : terminal_outcome s = none) :
    legal_moves s ≠ [] := by
  intro hnil
  exact (legal_moves_eq_nil_iff s).mp hnil (empty_mem_of_nonterminal s h)

/-- Applying a move preserves the board length. -/
theorem setMove_board_length (s : GameState) (m : Nat) :
    (setMove s m).board.length = s.board.length :=
  List.length_set _ _ _

/-- Cells after `setMove` on a legal index: the target gets the mover's
mark, the rest are unchanged. -/
theorem cellAt_setMove (s : GameState) (m : Nat) (hm : m < s.board.length) (i : Nat) :
    cellAt (setMove s m).board i = if i = m then s.player.cell else cellAt s.board i := by
  unfold setMove cellAt
  rw [List.getD_eq_getElem?_getD, List.getD_eq_getElem?_getD, List.getElem?_set]
  by_cases him : i = m
  · subst him
    simp [hm]
  · rw [if_neg (fun h => him h.symm), if_neg him]

/-- A legal move fills exactly one empty cell. -/
theorem countEmpty_setMove (s : GameState) (m : Nat) (hmem : m ∈ legal_moves s) :
    countEmpty (setMove s m).board + 1 = countEmpty s.board := by
  obtain ⟨hlt, hcell⟩ := (mem_legal_moves s m).mp hmem
  have hget : s.board[m] = Cell.empty := by
    rw [cellAt, List.getD_eq_getElem?_getD, List.getElem?_eq_getElem hlt] at hcell
    simpa using hcell
  have hpos : 0 < countEmpty s.board := by
    rw [countEmpty, List.count_pos_iff_mem]
    exact List.mem_iff_getElem?.mpr ⟨m, by rw [List.getElem?_eq_getElem hlt, hget]⟩
  unfold countEmpty at hpos ⊢
  unfold setMove
  rw [List.count_set _ _ _ _ hlt, hget]
  have hne : (s.player.cell == Cell.empty) = false := by
    cases s.player <;> rfl
  rw [hne]
  simp only [beq_self_eq_true, if_true, Bool.false_eq_true, if_false]
  omega

/-! ## Minimax lemmas -/

/-- `minimaxGo` ignores the fuel on terminal states. -/
theorem minimaxGo_of_terminal (c : Nat) (s : GameState) (p : Player) (v : ℚ)
    (h : terminal_value s p = some v) : minimaxGo c s p = v := by
  cases c with
  | zero => unfold minimaxGo; rw [h]; rfl
  | succ n => unfold minimaxGo; rw [h]

/-- A left max-fold dominates its accumulator. -/
theorem le_foldl_max_self (l : List ℚ) (a : ℚ) : a ≤ l.foldl max a := by
  induction l generalizing a with
  | nil => exact le_refl a
  | cons b t ih => exact le_trans (le_max_left a b) (ih (max a b))

/-- A left max-fold dominates every list element. -/
theorem le_foldl_max {l : List ℚ} {x : ℚ} (hx : x ∈ l) (a : ℚ) : x ≤ l.foldl max a := by
  induction l generalizing a with
  | nil => exact absurd hx (List.not_mem_nil x)
  | cons b t ih =>
    rcases List.mem_cons.mp hx with h | h
    · subst h
      exact le_trans (le_max_right a x) (le_foldl_max_self t (max a x))
    · exact ih h _

/-- A left max-fold of bounded values is bounded. -/
theorem foldl_max_le {l : List ℚ} {b : ℚ} (hl : ∀ x ∈ l, x ≤ b) {a : ℚ} (ha : a ≤ b) :
    l.foldl max a ≤ b := by
  induction l generalizing a with
  | nil => exact ha
  | cons u t ih =>
    refine ih (fun x hx => hl x (List.mem_cons_of_mem u hx)) ?_
    exact max_le ha (hl u (List.mem_cons_self u t))

/-- A left min-fold is below its accumulator. -/
theorem foldl_min_le_self (l : List ℚ) (a : ℚ) : l.foldl min a ≤ a := by
  induction l generalizing a with
  | nil => exact le_refl a
  | cons b t ih => exact le_trans (ih (min a b)) (min_le_left a b)

/-- A left min-fold is below every list element. -/
theorem foldl_min_le {l : List ℚ} {x : ℚ} (hx : x ∈ l) (a : ℚ) : l.foldl min a ≤ x := by
  induction l generalizing a with
  | nil => exact absurd hx (List.not_mem_nil x)
  | cons b t ih =>
    rcases List.mem_cons.mp hx with h | h
    · subst h
      exact le_trans (foldl_min_le_self t (min a x)) (min_le_right a x)
    · exact ih h _

/-- A left min-fold of bounded-below values is bounded below. -/
theorem le_foldl_min {l : List ℚ} {b : ℚ} (hl : ∀ x ∈ l, b ≤ x) {a : ℚ} (ha : b ≤ a) :
    b ≤ l.foldl min a := by
  induction l generalizing a with
  | nil => exact ha
  | cons u t ih =>
    refine ih (fun x hx => hl x (List.mem_cons_of_mem u hx)) ?_
    exact le_min ha (hl u (List.mem_cons_self u t))

/-- A left max-fold is the accumulator or some list element. -/
theorem foldl_max_choice (l : List ℚ) (a : ℚ) :
    l.foldl max a = a ∨ l.foldl max a ∈ l := by
  induction l generalizing a with
  | nil => exact Or.inl rfl
  | cons b t ih =>
    rcases ih (max a b) with h | h
    · rcases max_choice a b with hm | hm
      · rw [List.foldl_cons, h, hm]; exact Or.inl rfl
      · rw [List.foldl_cons, h, hm]; exact Or.inr (List.mem_cons_self b t)
    · exact Or.inr (List.mem_cons_of_mem b h)

/-- A left min-fold is the accumulator or some list element. -/
theorem foldl_min_choice (l : List ℚ) (a : ℚ) :
    l.foldl min a = a ∨ l.foldl min a ∈ l := by
  induction l generalizing a with
  | nil => exact Or.inl rfl
  | cons b t ih =>
    rcases ih (min a b) with h | h
    · rcases min_choice a b with hm | hm
      · rw [List.foldl_cons, h, hm]; exact Or.inl rfl
      · rw [List.foldl_cons, h, hm]; exact Or.inr (List.mem_cons_self b t)
    · exact Or.inr (List.mem_cons_of_mem b h)

/-- Terminal values lie in `{0, 1/2, 1}` and hence in `[0, 1]`. -/
theorem terminal_value_mem_unit (s : GameState) (p : Player) (v : ℚ)
    (h : terminal_value s p = some v) : 0 ≤ v ∧ v ≤ 1 := by
  unfold terminal_value at h
  rcases ho : terminal_outcome s with _ | o
  · rw [ho] at h; exact Option.noConfusion h
  · rw [ho] at h
    cases o with
    | draw =>
      simp only [Option.some.injEq] at h
      subst h
      norm_num
    | win q =>
      simp only [Option.some.injEq] at h
      subst h
      by_cases hq : q = p <;> simp [hq] <;> norm_num

/-- Minimax values lie in `[0, 1]`. -/
theorem minimaxGo_mem_unit (c : Nat) :
    ∀ (s : GameState) (p : Player), 0 ≤ minimaxGo c s p ∧ minimaxGo c s p ≤ 1 := by
  induction c with
  | zero =>
    intro s p
    unfold minimaxGo
    rcases h : terminal_value s p with _ | v
    · simp only [Option.getD_none]
      norm_num
    · simp only [Option.getD_some]
      exact terminal_value_mem_unit s p v h
  | succ n ih =>
    intro s p
    unfold minimaxGo
    rcases h : terminal_value s p with _ | v
    · dsimp only
      by_cases hp : s.player = p
      · rw [if_pos hp]
        refine ⟨le_foldl_max_self _ 0, foldl_max_le ?_ (by norm_num)⟩
        intro x hx
        obtain ⟨m, _, hm⟩ := List.mem_map.mp hx
        exact hm ▸ (ih _ p).2
      · rw [if_neg hp]
        refine ⟨le_foldl_min ?_ (by norm_num), foldl_min_le_self _ 1⟩
        intro x hx
        obtain ⟨m, _, hm⟩ := List.mem_map.mp hx
        exact hm ▸ (ih _ p).1
    · exact terminal_value_mem_unit s p v h

/-- Helpers on the two-element player type. -/
theorem other_player_ne (p : Player) : other_player p ≠ p := by
  cases p <;> simp [other_player]

/-- A player different from `me` is the other player. -/
theorem eq_other_player_of_ne {p me : Player} (h : p ≠ me) : p = other_player me := by
  cases p <;> cases me <;> simp_all [other_player]

/-- A board with no empty cell is terminal. -/
theorem terminal_value_isSome_of_countEmpty_zero (s : GameState) (p : Player)
    (h : countEmpty s.board = 0) : ∃ v, terminal_value s p = some v := by
  have hmem : Cell.empty ∉ s.board := by
    rw [countEmpty] at h
    exact (List.count_eq_zero.mp h)
  unfold terminal_value terminal_outcome
  cases hw : winner s.board with
  | some q => exact ⟨if q = p then 1 else 0, rfl⟩
  | none =>
    rw [if_neg hmem]
    exact ⟨1/2, rfl⟩

/-- Any fuel at least the number of empty cells computes `minimax_value`. -/
theorem minimaxGo_eq_minimax_value :
    ∀ (f : Nat) (s : GameState) (p : Player), countEmpty s.board ≤ f →
      minimaxGo f s p = minimax_value s p := by
  intro f
  induction f with
  | zero =>
    intro s p hle
    have hc : countEmpty s.board = 0 := Nat.le_zero.mp hle
    rw [minimax_value, hc]
  | succ n ih =>
    intro s p hle
    rcases h : terminal_value s p with _ | v
    case some =>
      rw [minimaxGo_of_terminal _ s p v h, minimax_value, minimaxGo_of_terminal _ s p v h]
    case none =>
      have hnonterm : terminal_outcome s = none := by
        unfold terminal_value at h
        cases ho : terminal_outcome s with
        | none => rfl
        | some o => rw [ho] at h; cases o <;> exact Option.noConfusion h
      have hypos : 0 < countEmpty s.board := by
        rw [countEmpty, List.count_pos_iff_mem]
        exact empty_mem_of_nonterminal s hnonterm
      obtain ⟨k, hk⟩ : ∃ k, countEmpty s.board = k + 1 :=
        ⟨countEmpty s.board - 1, by omega⟩
      have hchild : ∀ m ∈ legal_moves s, countEmpty (setMove s m).board = k := by
        intro m hm
        have := countEmpty_setMove s m hm
        omega
      have hmain : minimaxGo (n + 1) s p = minimaxGo (k + 1) s p := by
        unfold minimaxGo
        rw [h]
        dsimp only
        have hmap : (legal_moves s).map (fun m => minimaxGo n (setMove s m) p) =
            (legal_moves s).map (fun m => minimaxGo k (setMove s m) p) := by
          refine List.map_congr_left ?_
          intro m hm
          have h1 : minimaxGo n (setMove s m) p = minimax_value (setMove s m) p := by
            refine ih _ p ?_
            rw [hchild m hm]
            omega
          have h2 : minimaxGo k (setMove s m) p = minimax_value (setMove s m) p := by
            rw [minimax_value, hchild m hm]
          rw [h1, h2]
        rw [hmap]
      rw [hmain, minimax_value, hk]

/-! ## A draw certificate for the initial position

`canAvoidLoss me fuel s` is a Boolean ∃/∀ search checking that `me` can
force an outcome that is not a win for the opponent.  It is proof
infrastructure (not part of the source embedding): its soundness theorems
bound `minimax_value`, and two concrete runs at the initial position pin
`minimax_value(initial_state, X)` to exactly 1/2.  `orderedMoves` is a
permutation-into-priority-order of `legal_moves` used only to keep the
certificate search small. -/

/-- The moves that immediately win for the mover. -/
def winningMovesFor (s : GameState) : List Nat :=
  (legal_moves s).filter (fun m => terminal_outcome (setMove s m) = some (Outcome.win s.player))

/-- Search priority of a move: wins, then blocks, then center, corners, edges. -/
def movePriority (s : GameState) (m : Nat) : Nat :=
  if terminal_outcome (setMove s m) = some (Outcome.win s.player) then 0
  else if m ∈ winningMovesFor { board := s.board, player := other_player s.player } then 1
  else if m = 4 then 2
  else if m ∈ [0, 2, 6, 8] then 3
  else 4

/-- The legal moves, tried in priority order. -/
def orderedMoves (s : GameState) : List Nat :=
  let l := legal_moves s
  (l.filter (fun m => movePriority s m = 0)) ++ (l.filter (fun m => movePriority s m = 1)) ++
    (l.filter (fun m => movePriority s m = 2)) ++ (l.filter (fun m => movePriority s m = 3)) ++
    (l.filter (fun m => movePriority s m = 4))

/-- Ordered moves are legal moves. -/
theorem mem_legal_of_mem_orderedMoves {s : GameState} {m : Nat} (h : m ∈ orderedMoves s) :
    m ∈ legal_moves s := by
  unfold orderedMoves at h
  dsimp only at h
  rcases List.mem_append.mp h with h | h
  rcases List.mem_append.mp h with h | h
  rcases List.mem_append.mp h with h | h
  rcases List.mem_append.mp h with h | h
  all_goals exact (List.mem_filter.mp h).1

/-- The ∃/∀ draw search: `me` to move picks some move, the opponent is
universally quantified; terminal positions are acceptable unless the
opponent has won. -/
def canAvoidLoss (me : Player) : Nat → GameState → Bool
  | 0, _ => false
  | fuel + 1, s =>
    match terminal_outcome s with
    | some (Outcome.win p) => decide (p = me)
    | some Outcome.draw => true
    | none =>
      if s.player = me then
        (orderedMoves s).any (fun m => canAvoidLoss me fuel (setMove s m))
      else
        (legal_moves s).all (fun m => canAvoidLoss me fuel (setMove s m))

/-- If the winner is `q`, the terminal value for perspective `p` is 1 or 0. -/
theorem terminal_value_of_win (s : GameState) (p q : Player)
    (h : terminal_outcome s = some (Outcome.win q)) :
    terminal_value s p = some (if q = p then 1 else 0) := by
  unfold terminal_value
  rw [h]

/-- Draw outcome gives terminal value 1/2. -/
theorem terminal_value_of_draw (s : GameState) (p : Player)
    (h : terminal_outcome s = some Outcome.draw) : terminal_value s p = some (1/2) := by
  unfold terminal_value
  rw [h]

/-- Nonterminal states have no terminal value. -/
theorem terminal_value_of_nonterminal (s : GameState) (p : Player)
    (h : terminal_outcome s = none) : terminal_value s p = none := by
  unfold terminal_value
  rw [h]

/-- Soundness, lower bound: a draw certificate for `me` forces
`minimax_value` from `me`'s own perspective to at least 1/2. -/
theorem canAvoidLoss_ge :
    ∀ (f : Nat) (s : GameState) (me : Player), canAvoidLoss me f s = true →
      1/2 ≤ minimax_value s me := by
  intro f
  induction f with
  | zero => intro s me h; exact absurd h (by simp [canAvoidLoss])
  | succ n ih =>
    intro s me h
    unfold canAvoidLoss at h
    rcases ho : terminal_outcome s with _ | o
    · rw [ho] at h
      by_cases hp : s.player = me
      · rw [if_pos hp] at h
        obtain ⟨m, hmem, hrec⟩ := List.any_eq_true.mp h
        have hlegal := mem_legal_of_mem_orderedMoves hmem
        have hv := ih (setMove s m) me hrec
        rw [minimax_value]
        have hypos : 0 < countEmpty s.board := by
          rw [countEmpty, List.count_pos_iff_mem]
          exact empty_mem_of_nonterminal s ho
        obtain ⟨k, hk⟩ : ∃ k, countEmpty s.board = k + 1 :=
          ⟨countEmpty s.board - 1, by omega⟩
        rw [hk]
        unfold minimaxGo
        rw [terminal_value_of_nonterminal s me ho]
        dsimp only
        rw [if_pos hp]
        have hentry : minimaxGo k (setMove s m) me = minimax_value (setMove s m) me := by
          have hc := countEmpty_setMove s m hlegal
          rw [minimax_value]
          have : countEmpty (setMove s m).board = k := by omega
          rw [this]
        refine le_trans hv ?_
        rw [← hentry]
        exact le_foldl_max (List.mem_map_of_mem _ hlegal) 0
      · rw [if_neg hp] at h
        rw [minimax_value]
        have hypos : 0 < countEmpty s.board := by
          rw [countEmpty, List.count_pos_iff_mem]
          exact empty_mem_of_nonterminal s ho
        obtain ⟨k, hk⟩ : ∃ k, countEmpty s.board = k + 1 :=
          ⟨countEmpty s.board - 1, by omega⟩
        rw [hk]
        unfold minimaxGo
        rw [terminal_value_of_nonterminal s me ho]
        dsimp only
        rw [if_neg hp]
        refine le_foldl_min ?_ (by norm_num)
        intro x hx
        obtain ⟨m, hmem, hm⟩ := List.mem_map.mp hx
        have hrec := (List.all_eq_true.mp h) m hmem
        have hv := ih (setMove s m) me hrec
        have hc := countEmpty_setMove s m hmem
        have hco : countEmpty (setMove s m).board = k := by omega
        rw [← hm, minimaxGo_eq_minimax_value k _ me (le_of_eq hco)]
        exact hv
    · rw [ho] at h
      cases o with
      | draw =>
        rw [minimax_value, minimaxGo_of_terminal _ s me (1/2) (terminal_value_of_draw s me ho)]
      | win q =>
        have hq : q = me := by simpa using h
        rw [minimax_value,
          minimaxGo_of_terminal _ s me _ (terminal_value_of_win s me q ho), if_pos hq]
        norm_num

/-- Soundness, upper bound: a draw certificate for `me` forces
`minimax_value` from the opponent's perspective to at most 1/2. -/
theorem canAvoidLoss_le :
    ∀ (f : Nat) (s : GameState) (me : Player), canAvoidLoss me f s = true →
      minimax_value s (other_player me) ≤ 1/2 := by
  intro f
  induction f with
  | zero => intro s me h; exact absurd h (by simp [canAvoidLoss])
  | succ n ih =>
    intro s me h
    unfold canAvoidLoss at h
    rcases ho : terminal_outcome s with _ | o
    · rw [ho] at h
      have hypos : 0 < countEmpty s.board := by
        rw [countEmpty, List.count_pos_iff_mem]
        exact empty_mem_of_nonterminal s ho
      obtain ⟨k, hk⟩ : ∃ k, countEmpty s.board = k + 1 :=
        ⟨countEmpty s.board - 1, by omega⟩
      by_cases hp : s.player = me
      · rw [if_pos hp] at h
        obtain ⟨m, hmem, hrec⟩ := List.any_eq_true.mp h
        have hlegal := mem_legal_of_mem_orderedMoves hmem
        have hv := ih (setMove s m) me hrec
        rw [minimax_value, hk]
        unfold minimaxGo
        rw [terminal_value_of_nonterminal s _ ho]
        dsimp only
        rw [if_neg (by rw [hp]; exact fun hc => other_player_ne me hc.symm)]
        have hc := countEmpty_setMove s m hlegal
        have hco : countEmpty (setMove s m).board = k := by omega
        refine le_trans ?_ hv
        have hentry : minimaxGo k (setMove s m) (other_player me)
            = minimax_value (setMove s m) (other_player me) :=
          minimaxGo_eq_minimax_value k _ _ (le_of_eq hco)
        rw [← hentry]
        exact foldl_min_le (List.mem_map_of_mem _ hlegal) 1
      · rw [if_neg hp] at h
        rw [minimax_value, hk]
        unfold minimaxGo
        rw [terminal_value_of_nonterminal s _ ho]
        dsimp only
        rw [if_pos (eq_other_player_of_ne hp)]
        refine foldl_max_le ?_ (by norm_num)
        intro x hx
        obtain ⟨m, hmem, hm⟩ := List.mem_map.mp hx
        have hrec := (List.all_eq_true.mp h) m hmem
        have hv := ih (setMove s m) me hrec
        have hc := countEmpty_setMove s m hmem
        have hco : countEmpty (setMove s m).board = k := by omega
        rw [← hm, minimaxGo_eq_minimax_value k _ _ (le_of_eq hco)]
        exact hv
    · rw [ho] at h
      cases o with
      | draw =>
        rw [minimax_value, minimaxGo_of_terminal _ s _ (1/2) (terminal_value_of_draw s _ ho)]
      | win q =>
        have hq : q = me := by simpa using h
        have hne : q ≠ other_player me := by rw [hq]; exact fun hc => other_player_ne me hc.symm
        rw [minimax_value,
          minimaxGo_of_terminal _ s _ _ (terminal_value_of_win s (other_player me) q ho),
          if_neg hne]
        norm_num

/-- One search step at an opponent node: the certificate holds exactly when
it holds after every legal reply. -/
theorem canAvoidLoss_opp_step (me : Player) (f : Nat) (s : GameState)
    (hterm : terminal_outcome s = none) (hp : ¬ s.player = me) :
    canAvoidLoss me (f + 1) s
      = (legal_moves s).all (fun m => canAvoidLoss me f (setMove s m)) := by
  rw [canAvoidLoss]
  rw [hterm]
  dsimp only
  rw [if_neg hp]

/-- One search step at a node where `me` moves: a single certified move
suffices. -/
theorem canAvoidLoss_of_move (me : Player) (f : Nat) (s : GameState) (m : Nat)
    (hterm : terminal_outcome s = none) (hp : s.player = me)
    (hm : m ∈ orderedMoves s) (h : canAvoidLoss me f (setMove s m) = true) :
    canAvoidLoss me (f + 1) s = true := by
  rw [canAvoidLoss]
  rw [hterm]
  dsimp only
  rw [if_pos hp]
  exact List.any_eq_true.mpr ⟨m, hm, h⟩

set_option maxRecDepth 10000 in
set_option maxHeartbeats 64000000 in
/-- Certified X defense after X takes the center and O replies 0. -/
theorem canAvoidLoss_X_c0 :
    canAvoidLoss Player.X 8 (setMove (setMove initial_state 4) 0) = true := by
  decide

set_option maxRecDepth 10000 in
set_option maxHeartbeats 64000000 in
/-- Certified X defense after X takes the center and O replies 1. -/
theorem canAvoidLoss_X_c1 :
    canAvoidLoss Player.X 8 (setMove (setMove initial_state 4) 1) = true := by
  decide

set_option maxRecDepth 10000 in
set_option maxHeartbeats 64000000 in
/-- Certified X defense after X takes the center and O replies 2. -/
theorem canAvoidLoss_X_c2 :
    canAvoidLoss Player.X 8 (setMove (setMove initial_state 4) 2) = true := by
  decide

set_option maxRecDepth 10000 in
set_option maxHeartbeats 64000000 in
/-- Certified X defense after X takes the center and O replies 3. -/
theorem canAvoidLoss_X_c3 :
    canAvoidLoss Player.X 8 (setMove (setMove initial_state 4) 3) = true := by
  decide

set_option maxRecDepth 10000 in
set_option maxHeartbeats 64000000 in
/-- Certified X defense after X takes the center and O replies 5. -/
theorem canAvoidLoss_X_c5 :
    canAvoidLoss Player.X 8 (setMove (setMove initial_state 4) 5) = true := by
  decide

set_option maxRecDepth 10000 in
set_option maxHeartbeats 64000000 in
/-- Certified X defense after X takes the center and O replies 6. -/
theorem canAvoidLoss_X_c6 :
    canAvoidLoss Player.X 8 (setMove (setMove initial_state 4) 6) = true := by
  decide

set_option maxRecDepth 10000 in
set_option maxHeartbeats 64000000 in
/-- Certified X defense after X takes the center and O replies 7. -/
theorem canAvoidLoss_X_c7 :
    canAvoidLoss Player.X 8 (setMove (setMove initial_state 4) 7) = true := by
  decide

set_option maxRecDepth 10000 in
set_option maxHeartbeats 64000000 in
/-- Certified X defense after X takes the center and O replies 8. -/
theorem canAvoidLoss_X_c8 :
    canAvoidLoss Player.X 8 (setMove (setMove initial_state 4) 8) = true := by
  decide

/-- Certified X strategy: opening in the center, X never loses. -/
theorem canAvoidLoss_X_center : canAvoidLoss Player.X 9 (setMove initial_state 4) = true := by
  have hstep := canAvoidLoss_opp_step Player.X 8 (setMove initial_state 4)
    (by with_unfolding_all decide) (by with_unfolding_all decide)
  rw [show (9 : Nat) = 8 + 1 from rfl, hstep,
    (by with_unfolding_all decide :
      legal_moves (setMove initial_state 4) = [0, 1, 2, 3, 5, 6, 7, 8])]
  simp only [List.all_cons, List.all_nil, Bool.and_true]
  rw [canAvoidLoss_X_c0, canAvoidLoss_X_c1, canAvoidLoss_X_c2, canAvoidLoss_X_c3,
    canAvoidLoss_X_c5, canAvoidLoss_X_c6, canAvoidLoss_X_c7, canAvoidLoss_X_c8]
  decide

/-- Concrete certificate: X never loses tic-tac-toe. -/
theorem canAvoidLoss_X_initial : canAvoidLoss Player.X 10 initial_state = true := by
  rw [show (10 : Nat) = 9 + 1 from rfl]
  exact canAvoidLoss_of_move Player.X 9 initial_state 4 (by with_unfolding_all decide) rfl
    (by with_unfolding_all decide) canAvoidLoss_X_center

set_option maxRecDepth 10000 in
set_option maxHeartbeats 64000000 in
/-- Certified O defense: X opened 0, O replied 4, X continued 1. -/
theorem canAvoidLoss_O_b0_l1 :
    canAvoidLoss Player.O 7 (setMove (setMove (setMove initial_state 0) 4) 1) = true := by
  decide

set_option maxRecDepth 10000 in
set_option maxHeartbeats 64000000 in
/-- Certified O defense: X opened 0, O replied 4, X continued 2. -/
theorem canAvoidLoss_O_b0_l2 :
    canAvoidLoss Player.O 7 (setMove (setMove (setMove initial_state 0) 4) 2) = true := by
  decide

set_option maxRecDepth 10000 in
set_option maxHeartbeats 64000000 in
/-- Certified O defense: X opened 0, O replied 4, X continued 3. -/
theorem canAvoidLoss_O_b0_l3 :
    canAvoidLoss Player.O 7 (setMove (setMove (setMove initial_state 0) 4) 3) = true := by
  decide

set_option maxRecDepth 10000 in
set_option maxHeartbeats 64000000 in
/-- Certified O defense: X opened 0, O replied 4, X continued 5. -/
theorem canAvoidLoss_O_b0_l5 :
    canAvoidLoss Player.O 7 (setMove (setMove (setMove initial_state 0) 4) 5) = true := by
  decide

set_option maxRecDepth 10000 in
set_option maxHeartbeats 64000000 in
/-- Certified O defense: X opened 0, O replied 4, X continued 6. -/
theorem canAvoidLoss_O_b0_l6 :
    canAvoidLoss Player.O 7 (setMove (setMove (setMove initial_state 0) 4) 6) = true := by
  decide

set_option maxRecDepth 10000 in
set_option maxHeartbeats 64000000 in
/-- Certified O defense: X opened 0, O replied 4, X continued 7. -/
theorem canAvoidLoss_O_b0_l7 :
    canAvoidLoss Player.O 7 (setMove (setMove (setMove initial_state 0) 4) 7) = true := by
  decide

set_option maxRecDepth 10000 in
set_option maxHeartbeats 64000000 in
/-- Certified O defense: X opened 0, O replied 4, X continued 8. -/
theorem canAvoidLoss_O_b0_l8 :
    canAvoidLoss Player.O 7 (setMove (setMove (setMove initial_state 0) 4) 8) = true := by
  decide

/-- Certified O defense after X opens 0 and O replies 4. -/
theorem canAvoidLoss_O_b0_r :
    canAvoidLoss Player.O 8 (setMove (setMove initial_state 0) 4) = true := by
  have hstep := canAvoidLoss_opp_step Player.O 7 (setMove (setMove initial_state 0) 4)
    (by with_unfolding_all decide) (by with_unfolding_all decide)
  rw [show (8 : Nat) = 7 + 1 from rfl, hstep,
    (by with_unfolding_all decide :
      legal_moves (setMove (setMove initial_state 0) 4) = [1, 2, 3, 5, 6, 7, 8])]
  simp only [List.all_cons, List.all_nil, Bool.and_true]
  rw [canAvoidLoss_O_b0_l1,
    canAvoidLoss_O_b0_l2,
    canAvoidLoss_O_b0_l3,
    canAvoidLoss_O_b0_l5,
    canAvoidLoss_O_b0_l6,
    canAvoidLoss_O_b0_l7,
    canAvoidLoss_O_b0_l8]
  decide

/-- Certified O defense after X opens with move 0. -/
theorem canAvoidLoss_O_b0 :
    canAvoidLoss Player.O 9 (setMove initial_state 0) = true := by
  rw [show (9 : Nat) = 8 + 1 from rfl]
  exact canAvoidLoss_of_move Player.O 8 (setMove initial_state 0) 4
    (by with_unfolding_all decide) (by with_unfolding_all decide)
    (by with_unfolding_all decide) canAvoidLoss_O_b0_r

set_option maxRecDepth 10000 in
set_option maxHeartbeats 64000000 in
/-- Certified O defense: X opened 1, O replied 4, X continued 0. -/
theorem canAvoidLoss_O_b1_l0 :
    canAvoidLoss Player.O 7 (setMove (setMove (setMove initial_state 1) 4) 0) = true := by
  decide

set_option maxRecDepth 10000 in
set_option maxHeartbeats 64000000 in
/-- Certified O defense: X opened 1, O replied 4, X continued 2. -/
theorem canAvoidLoss_O_b1_l2 :
    canAvoidLoss Player.O 7 (setMove (setMove (setMove initial_state 1) 4) 2) = true := by
  decide

set_option maxRecDepth 10000 in
set_option maxHeartbeats 64000000 in
/-- Certified O defense: X opened 1, O replied 4, X continued 3. -/
theorem canAvoidLoss_O_b1_l3 :
    canAvoidLoss Player.O 7 (setMove (setMove (setMove initial_state 1) 4) 3) = true := by
  decide

set_option maxRecDepth 10000 in
set_option maxHeartbeats 64000000 in
/-- Certified O defense: X opened 1, O replied 4, X continued 5. -/
theorem canAvoidLoss_O_b1_l5 :
    canAvoidLoss Player.O 7 (setMove (setMove (setMove initial_state 1) 4) 5) = true := by
  decide

set_option maxRecDepth 10000 in
set_option maxHeartbeats 64000000 in
/-- Certified O defense: X opened 1, O replied 4, X continued 6. -/
theorem canAvoidLoss_O_b1_l6 :
    canAvoidLoss Player.O 7 (setMove (setMove (setMove initial_state 1) 4) 6) = true := by
  decide

set_option maxRecDepth 10000 in
set_option maxHeartbeats 64000000 in
/-- Certified O defense: X opened 1, O replied 4, X continued 7. -/
theorem canAvoidLoss_O_b1_l7 :
    canAvoidLoss Player.O 7 (setMove (setMove (setMove initial_state 1) 4) 7) = true := by
  decide

set_option maxRecDepth 10000 in
set_option maxHeartbeats 64000000 in
/-- Certified O defense: X opened 1, O replied 4, X continued 8. -/
theorem canAvoidLoss_O_b1_l8 :
    canAvoidLoss Player.O 7 (setMove (setMove (setMove initial_state 1) 4) 8) = true := by
  decide

/-- Certified O defense after X opens 1 and O replies 4. -/
theorem canAvoidLoss_O_b1_r :
    canAvoidLoss Player.O 8 (setMove (setMove initial_state 1) 4) = true := by
  have hstep := canAvoidLoss_opp_step Player.O 7 (setMove (setMove initial_state 1) 4)
    (by with_unfolding_all decide) (by with_unfolding_all decide)
  rw [show (8 : Nat) = 7 + 1 from rfl, hstep,
    (by with_unfolding_all decide :
      legal_moves (setMove (setMove initial_state 1) 4) = [0, 2, 3, 5, 6, 7, 8])]
  simp only [List.all_cons, List.all_nil, Bool.and_true]
  rw [canAvoidLoss_O_b1_l0,
    canAvoidLoss_O_b1_l2,
    canAvoidLoss_O_b1_l3,
    canAvoidLoss_O_b1_l5,
    canAvoidLoss_O_b1_l6,
    canAvoidLoss_O_b1_l7,
    canAvoidLoss_O_b1_l8]
  decide

/-- Certified O defense after X opens with move 1. -/
theorem canAvoidLoss_O_b1 :
    canAvoidLoss Player.O 9 (setMove initial_state 1) = true := by
  rw [show (9 : Nat) = 8 + 1 from rfl]
  exact canAvoidLoss_of_move Player.O 8 (setMove initial_state 1) 4
    (by with_unfolding_all decide) (by with_unfolding_all decide)
    (by with_unfolding_all decide) canAvoidLoss_O_b1_r

set_option maxRecDepth 10000 in
set_option maxHeartbeats 64000000 in
/-- Certified O defense: X opened 2, O replied 4, X continued 0. -/
theorem canAvoidLoss_O_b2_l0 :
    canAvoidLoss Player.O 7 (setMove (setMove (setMove initial_state 2) 4) 0) = true := by
  decide

set_option maxRecDepth 10000 in
set_option maxHeartbeats 64000000 in
/-- Certified O defense: X opened 2, O replied 4, X continued 1. -/
theorem canAvoidLoss_O_b2_l1 :
    canAvoidLoss Player.O 7 (setMove (setMove (setMove initial_state 2) 4) 1) = true := by
  decide

set_option maxRecDepth 10000 in
set_option maxHeartbeats 64000000 in
/-- Certified O defense: X opened 2, O replied 4, X continued 3. -/
theorem canAvoidLoss_O_b2_l3 :
    canAvoidLoss Player.O 7 (setMove (setMove (setMove initial_state 2) 4) 3) = true := by
  decide

set_option maxRecDepth 10000 in
set_option maxHeartbeats 64000000 in
/-- Certified O defense: X opened 2, O replied 4, X continued 5. -/
theorem canAvoidLoss_O_b2_l5 :
    canAvoidLoss Player.O 7 (setMove (setMove (setMove initial_state 2) 4) 5) = true := by
  decide

set_option maxRecDepth 10000 in
set_option maxHeartbeats 64000000 in
/-- Certified O defense: X opened 2, O replied 4, X continued 6. -/
theorem canAvoidLoss_O_b2_l6 :
    canAvoidLoss Player.O 7 (setMove (setMove (setMove initial_state 2) 4) 6) = true := by
  decide

set_option maxRecDepth 10000 in
set_option maxHeartbeats 64000000 in
/-- Certified O defense: X opened 2, O replied 4, X continued 7. -/
theorem canAvoidLoss_O_b2_l7 :
    canAvoidLoss Player.O 7 (setMove (setMove (setMove initial_state 2) 4) 7) = true := by
  decide

set_option maxRecDepth 10000 in
set_option maxHeartbeats 64000000 in
/-- Certified O defense: X opened 2, O replied 4, X continued 8. -/
theorem canAvoidLoss_O_b2_l8 :
    canAvoidLoss Player.O 7 (setMove (setMove (setMove initial_state 2) 4) 8) = true := by
  decide

/-- Certified O defense after X opens 2 and O replies 4. -/
theorem canAvoidLoss_O_b2_r :
    canAvoidLoss Player.O 8 (setMove (setMove initial_state 2) 4) = true := by
  have hstep := canAvoidLoss_opp_step Player.O 7 (setMove (setMove initial_state 2) 4)
    (by with_unfolding_all decide) (by with_unfolding_all decide)
  rw [show (8 : Nat) = 7 + 1 from rfl, hstep,
    (by with_unfolding_all decide :
      legal_moves (setMove (setMove initial_state 2) 4) = [0, 1, 3, 5, 6, 7, 8])]
  simp only [List.all_cons, List.all_nil, Bool.and_true]
  rw [canAvoidLoss_O_b2_l0,
    canAvoidLoss_O_b2_l1,
    canAvoidLoss_O_b2_l3,
    canAvoidLoss_O_b2_l5,
    canAvoidLoss_O_b2_l6,
    canAvoidLoss_O_b2_l7,
    canAvoidLoss_O_b2_l8]
  decide

/-- Certified O defense after X opens with move 2. -/
theorem canAvoidLoss_O_b2 :
    canAvoidLoss Player.O 9 (setMove initial_state 2) = true := by
  rw [show (9 : Nat) = 8 + 1 from rfl]
  exact canAvoidLoss_of_move Player.O 8 (setMove initial_state 2) 4
    (by with_unfolding_all decide) (by with_unfolding_all decide)
    (by with_unfolding_all decide) canAvoidLoss_O_b2_r

set_option maxRecDepth 10000 in
set_option maxHeartbeats 64000000 in
/-- Certified O defense: X opened 3, O replied 4, X continued 0. -/
theorem canAvoidLoss_O_b3_l0 :
    canAvoidLoss Player.O 7 (setMove (setMove (setMove initial_state 3) 4) 0) = true := by
  decide

set_option maxRecDepth 10000 in
set_option maxHeartbeats 64000000 in
/-- Certified O defense: X opened 3, O replied 4, X continued 1. -/
theorem canAvoidLoss_O_b3_l1 :
    canAvoidLoss Player.O 7 (setMove (setMove (setMove initial_state 3) 4) 1) = true := by
  decide

set_option maxRecDepth 10000 in
set_option maxHeartbeats 64000000 in
/-- Certified O defense: X opened 3, O replied 4, X continued 2. -/
theorem canAvoidLoss_O_b3_l2 :
    canAvoidLoss Player.O 7 (setMove (setMove (setMove initial_state 3) 4) 2) = true := by
  decide

set_option maxRecDepth 10000 in
set_option maxHeartbeats 64000000 in
/-- Certified O defense: X opened 3, O replied 4, X continued 5. -/
theorem canAvoidLoss_O_b3_l5 :
    canAvoidLoss Player.O 7 (setMove (setMove (setMove initial_state 3) 4) 5) = true := by
  decide

set_option maxRecDepth 10000 in
set_option maxHeartbeats 64000000 in
/-- Certified O defense: X opened 3, O replied 4, X continued 6. -/
theorem canAvoidLoss_O_b3_l6 :
    canAvoidLoss Player.O 7 (setMove (setMove (setMove initial_state 3) 4) 6) = true := by
  decide

set_option maxRecDepth 10000 in
set_option maxHeartbeats 64000000 in
/-- Certified O defense: X opened 3, O replied 4, X continued 7. -/
theorem canAvoidLoss_O_b3_l7 :
    canAvoidLoss Player.O 7 (setMove (setMove (setMove initial_state 3) 4) 7) = true := by
  decide

set_option maxRecDepth 10000 in
set_option maxHeartbeats 64000000 in
/-- Certified O defense: X opened 3, O replied 4, X continued 8. -/
theorem canAvoidLoss_O_b3_l8 :
    canAvoidLoss Player.O 7 (setMove (setMove (setMove initial_state 3) 4) 8) = true := by
  decide

/-- Certified O defense after X opens 3 and O replies 4. -/
theorem canAvoidLoss_O_b3_r :
    canAvoidLoss Player.O 8 (setMove (setMove initial_state 3) 4) = true := by
  have hstep := canAvoidLoss_opp_step Player.O 7 (setMove (setMove initial_state 3) 4)
    (by with_unfolding_all decide) (by with_unfolding_all decide)
  rw [show (8 : Nat) = 7 + 1 from rfl, hstep,
    (by with_unfolding_all decide :
      legal_moves (setMove (setMove initial_state 3) 4) = [0, 1, 2, 5, 6, 7, 8])]
  simp only [List.all_cons, List.all_nil, Bool.and_true]
  rw [canAvoidLoss_O_b3_l0,
    canAvoidLoss_O_b3_l1,
    canAvoidLoss_O_b3_l2,
    canAvoidLoss_O_b3_l5,
    canAvoidLoss_O_b3_l6,
    canAvoidLoss_O_b3_l7,
    canAvoidLoss_O_b3_l8]
  decide

/-- Certified O defense after X opens with move 3. -/
theorem canAvoidLoss_O_b3 :
    canAvoidLoss Player.O 9 (setMove initial_state 3) = true := by
  rw [show (9 : Nat) = 8 + 1 from rfl]
  exact canAvoidLoss_of_move Player.O 8 (setMove initial_state 3) 4
    (by with_unfolding_all decide) (by with_unfolding_all decide)
    (by with_unfolding_all decide) canAvoidLoss_O_b3_r

set_option maxRecDepth 10000 in
set_option maxHeartbeats 64000000 in
/-- Certified O defense: X opened 4, O replied 0, X continued 1. -/
theorem canAvoidLoss_O_b4_l1 :
    canAvoidLoss Player.O 7 (setMove (setMove (setMove initial_state 4) 0) 1) = true := by
  decide

set_option maxRecDepth 10000 in
set_option maxHeartbeats 64000000 in
/-- Certified O defense: X opened 4, O replied 0, X continued 2. -/
theorem canAvoidLoss_O_b4_l2 :
    canAvoidLoss Player.O 7 (setMove (setMove (setMove initial_state 4) 0) 2) = true := by
  decide

set_option maxRecDepth 10000 in
set_option maxHeartbeats 64000000 in
/-- Certified O defense: X opened 4, O replied 0, X continued 3. -/
theorem canAvoidLoss_O_b4_l3 :
    canAvoidLoss Player.O 7 (setMove (setMove (setMove initial_state 4) 0) 3) = true := by
  decide

set_option maxRecDepth 10000 in
set_option maxHeartbeats 64000000 in
/-- Certified O defense: X opened 4, O replied 0, X continued 5. -/
theorem canAvoidLoss_O_b4_l5 :
    canAvoidLoss Player.O 7 (setMove (setMove (setMove initial_state 4) 0) 5) = true := by
  decide

set_option maxRecDepth 10000 in
set_option maxHeartbeats 64000000 in
/-- Certified O defense: X opened 4, O replied 0, X continued 6. -/
theorem canAvoidLoss_O_b4_l6 :
    canAvoidLoss Player.O 7 (setMove (setMove (setMove initial_state 4) 0) 6) = true := by
  decide

set_option maxRecDepth 10000 in
set_option maxHeartbeats 64000000 in
/-- Certified O defense: X opened 4, O replied 0, X continued 7. -/
theorem canAvoidLoss_O_b4_l7 :
    canAvoidLoss Player.O 7 (setMove (setMove (setMove initial_state 4) 0) 7) = true := by
  decide

set_option maxRecDepth 10000 in
set_option maxHeartbeats 64000000 in
/-- Certified O defense: X opened 4, O replied 0, X continued 8. -/
theorem canAvoidLoss_O_b4_l8 :
    canAvoidLoss Player.O 7 (setMove (setMove (setMove initial_state 4) 0) 8) = true := by
  decide

/-- Certified O defense after X opens 4 and O replies 0. -/
theorem canAvoidLoss_O_b4_r :
    canAvoidLoss Player.O 8 (setMove (setMove initial_state 4) 0) = true := by
  have hstep := canAvoidLoss_opp_step Player.O 7 (setMove (setMove initial_state 4) 0)
    (by with_unfolding_all decide) (by with_unfolding_all decide)
  rw [show (8 : Nat) = 7 + 1 from rfl, hstep,
    (by with_unfolding_all decide :
      legal_moves (setMove (setMove initial_state 4) 0) = [1, 2, 3, 5, 6, 7, 8])]
  simp only [List.all_cons, List.all_nil, Bool.and_true]
  rw [canAvoidLoss_O_b4_l1,
    canAvoidLoss_O_b4_l2,
    canAvoidLoss_O_b4_l3,
    canAvoidLoss_O_b4_l5,
    canAvoidLoss_O_b4_l6,
    canAvoidLoss_O_b4_l7,
    canAvoidLoss_O_b4_l8]
  decide

/-- Certified O defense after X opens with move 4. -/
theorem canAvoidLoss_O_b4 :
    canAvoidLoss Player.O 9 (setMove initial_state 4) = true := by
  rw [show (9 : Nat) = 8 + 1 from rfl]
  exact canAvoidLoss_of_move Player.O 8 (setMove initial_state 4) 0
    (by with_unfolding_all decide) (by with_unfolding_all decide)
    (by with_unfolding_all decide) canAvoidLoss_O_b4_r

set_option maxRecDepth 10000 in
set_option maxHeartbeats 64000000 in
/-- Certified O defense: X opened 5, O replied 4, X continued 0. -/
theorem canAvoidLoss_O_b5_l0 :
    canAvoidLoss Player.O 7 (setMove (setMove (setMove initial_state 5) 4) 0) = true := by
  decide

set_option maxRecDepth 10000 in
set_option maxHeartbeats 64000000 in
/-- Certified O defense: X opened 5, O replied 4, X continued 1. -/
theorem canAvoidLoss_O_b5_l1 :
    canAvoidLoss Player.O 7 (setMove (setMove (setMove initial_state 5) 4) 1) = true := by
  decide

set_option maxRecDepth 10000 in
set_option maxHeartbeats 64000000 in
/-- Certified O defense: X opened 5, O replied 4, X continued 2. -/
theorem canAvoidLoss_O_b5_l2 :
    canAvoidLoss Player.O 7 (setMove (setMove (setMove initial_state 5) 4) 2) = true := by
  decide

set_option maxRecDepth 10000 in
set_option maxHeartbeats 64000000 in
/-- Certified O defense: X opened 5, O replied 4, X continued 3. -/
theorem canAvoidLoss_O_b5_l3 :
    canAvoidLoss Player.O 7 (setMove (setMove (setMove initial_state 5) 4) 3) = true := by
  decide

set_option maxRecDepth 10000 in
set_option maxHeartbeats 64000000 in
/-- Certified O defense: X opened 5, O replied 4, X continued 6. -/
theorem canAvoidLoss_O_b5_l6 :
    canAvoidLoss Player.O 7 (setMove (setMove (setMove initial_state 5) 4) 6) = true := by
  decide

set_option maxRecDepth 10000 in
set_option maxHeartbeats 64000000 in
/-- Certified O defense: X opened 5, O replied 4, X continued 7. -/
theorem canAvoidLoss_O_b5_l7 :
    canAvoidLoss Player.O 7 (setMove (setMove (setMove initial_state 5) 4) 7) = true := by
  decide

set_option maxRecDepth 10000 in
set_option maxHeartbeats 64000000 in
/-- Certified O defense: X opened 5, O replied 4, X continued 8. -/
theorem canAvoidLoss_O_b5_l8 :
    canAvoidLoss Player.O 7 (setMove (setMove (setMove initial_state 5) 4) 8) = true := by
  decide

/-- Certified O defense after X opens 5 and O replies 4. -/
theorem canAvoidLoss_O_b5_r :
    canAvoidLoss Player.O 8 (setMove (setMove initial_state 5) 4) = true := by
  have hstep := canAvoidLoss_opp_step Player.O 7 (setMove (setMove initial_state 5) 4)
    (by with_unfolding_all decide) (by with_unfolding_all decide)
  rw [show (8 : Nat) = 7 + 1 from rfl, hstep,
    (by with_unfolding_all decide :
      legal_moves (setMove (setMove initial_state 5) 4) = [0, 1, 2, 3, 6, 7, 8])]
  simp only [List.all_cons, List.all_nil, Bool.and_true]
  rw [canAvoidLoss_O_b5_l0,
    canAvoidLoss_O_b5_l1,
    canAvoidLoss_O_b5_l2,
    canAvoidLoss_O_b5_l3,
    canAvoidLoss_O_b5_l6,
    canAvoidLoss_O_b5_l7,
    canAvoidLoss_O_b5_l8]
  decide

/-- Certified O defense after X opens with move 5. -/
theorem canAvoidLoss_O_b5 :
    canAvoidLoss Player.O 9 (setMove initial_state 5) = true := by
  rw [show (9 : Nat) = 8 + 1 from rfl]
  exact canAvoidLoss_of_move Player.O 8 (setMove initial_state 5) 4
    (by with_unfolding_all decide) (by with_unfolding_all decide)
    (by with_unfolding_all decide) canAvoidLoss_O_b5_r

set_option maxRecDepth 10000 in
set_option maxHeartbeats 64000000 in
/-- Certified O defense: X opened 6, O replied 4, X continued 0. -/
theorem canAvoidLoss_O_b6_l0 :
    canAvoidLoss Player.O 7 (setMove (setMove (setMove initial_state 6) 4) 0) = true := by
  decide

set_option maxRecDepth 10000 in
set_option maxHeartbeats 64000000 in
/-- Certified O defense: X opened 6, O replied 4, X continued 1. -/
theorem canAvoidLoss_O_b6_l1 :
    canAvoidLoss Player.O 7 (setMove (setMove (setMove initial_state 6) 4) 1) = true := by
  decide

set_option maxRecDepth 10000 in
set_option maxHeartbeats 64000000 in
/-- Certified O defense: X opened 6, O replied 4, X continued 2. -/
theorem canAvoidLoss_O_b6_l2 :
    canAvoidLoss Player.O 7 (setMove (setMove (setMove initial_state 6) 4) 2) = true := by
  decide

set_option maxRecDepth 10000 in
set_option maxHeartbeats 64000000 in
/-- Certified O defense: X opened 6, O replied 4, X continued 3. -/
theorem canAvoidLoss_O_b6_l3 :
    canAvoidLoss Player.O 7 (setMove (setMove (setMove initial_state 6) 4) 3) = true := by
  decide

set_option maxRecDepth 10000 in
set_option maxHeartbeats 64000000 in
/-- Certified O defense: X opened 6, O replied 4, X continued 5. -/
theorem canAvoidLoss_O_b6_l5 :
    canAvoidLoss Player.O 7 (setMove (setMove (setMove initial_state 6) 4) 5) = true := by
  decide

set_option maxRecDepth 10000 in
set_option maxHeartbeats 64000000 in
/-- Certified O defense: X opened 6, O replied 4, X continued 7. -/
theorem canAvoidLoss_O_b6_l7 :
    canAvoidLoss Player.O 7 (setMove (setMove (setMove initial_state 6) 4) 7) = true := by
  decide

set_option maxRecDepth 10000 in
set_option maxHeartbeats 64000000 in
/-- Certified O defense: X opened 6, O replied 4, X continued 8. -/
theorem canAvoidLoss_O_b6_l8 :
    canAvoidLoss Player.O 7 (setMove (setMove (setMove initial_state 6) 4) 8) = true := by
  decide

/-- Certified O defense after X opens 6 and O replies 4. -/
theorem canAvoidLoss_O_b6_r :
    canAvoidLoss Player.O 8 (setMove (setMove initial_state 6) 4) = true := by
  have hstep := canAvoidLoss_opp_step Player.O 7 (setMove (setMove initial_state 6) 4)
    (by with_unfolding_all decide) (by with_unfolding_all decide)
  rw [show (8 : Nat) = 7 + 1 from rfl, hstep,
    (by with_unfolding_all decide :
      legal_moves (setMove (setMove initial_state 6) 4) = [0, 1, 2, 3, 5, 7, 8])]
  simp only [List.all_cons, List.all_nil, Bool.and_true]
  rw [canAvoidLoss_O_b6_l0,
    canAvoidLoss_O_b6_l1,
    canAvoidLoss_O_b6_l2,
    canAvoidLoss_O_b6_l3,
    canAvoidLoss_O_b6_l5,
    canAvoidLoss_O_b6_l7,
    canAvoidLoss_O_b6_l8]
  decide

/-- Certified O defense after X opens with move 6. -/
theorem canAvoidLoss_O_b6 :
    canAvoidLoss Player.O 9 (setMove initial_state 6) = true := by
  rw [show (9 : Nat) = 8 + 1 from rfl]
  exact canAvoidLoss_of_move Player.O 8 (setMove initial_state 6) 4
    (by with_unfolding_all decide) (by with_unfolding_all decide)
    (by with_unfolding_all decide) canAvoidLoss_O_b6_r

set_option maxRecDepth 10000 in
set_option maxHeartbeats 64000000 in
/-- Certified O defense: X opened 7, O replied 4, X continued 0. -/
theorem canAvoidLoss_O_b7_l0 :
    canAvoidLoss Player.O 7 (setMove (setMove (setMove initial_state 7) 4) 0) = true := by
  decide

set_option maxRecDepth 10000 in
set_option maxHeartbeats 64000000 in
/-- Certified O defense: X opened 7, O replied 4, X continued 1. -/
theorem canAvoidLoss_O_b7_l1 :
    canAvoidLoss Player.O 7 (setMove (setMove (setMove initial_state 7) 4) 1) = true := by
  decide

set_option maxRecDepth 10000 in
set_option maxHeartbeats 64000000 in
/-- Certified O defense: X opened 7, O replied 4, X continued 2. -/
theorem canAvoidLoss_O_b7_l2 :
    canAvoidLoss Player.O 7 (setMove (setMove (setMove initial_state 7) 4) 2) = true := by
  decide

set_option maxRecDepth 10000 in
set_option maxHeartbeats 64000000 in
/-- Certified O defense: X opened 7, O replied 4, X continued 3. -/
theorem canAvoidLoss_O_b7_l3 :
    canAvoidLoss Player.O 7 (setMove (setMove (setMove initial_state 7) 4) 3) = true := by
  decide

set_option maxRecDepth 10000 in
set_option maxHeartbeats 64000000 in
/-- Certified O defense: X opened 7, O replied 4, X continued 5. -/
theorem canAvoidLoss_O_b7_l5 :
    canAvoidLoss Player.O 7 (setMove (setMove (setMove initial_state 7) 4) 5) = true := by
  decide

set_option maxRecDepth 10000 in
set_option maxHeartbeats 64000000 in
/-- Certified O defense: X opened 7, O replied 4, X continued 6. -/
theorem canAvoidLoss_O_b7_l6 :
    canAvoidLoss Player.O 7 (setMove (setMove (setMove initial_state 7) 4) 6) = true := by
  decide

set_option maxRecDepth 10000 in
set_option maxHeartbeats 64000000 in
/-- Certified O defense: X opened 7, O replied 4, X continued 8. -/
theorem canAvoidLoss_O_b7_l8 :
    canAvoidLoss Player.O 7 (setMove (setMove (setMove initial_state 7) 4) 8) = true := by
  decide

/-- Certified O defense after X opens 7 and O replies 4. -/
theorem canAvoidLoss_O_b7_r :
    canAvoidLoss Player.O 8 (setMove (setMove initial_state 7) 4) = true := by
  have hstep := canAvoidLoss_opp_step Player.O 7 (setMove (setMove initial_state 7) 4)
    (by with_unfolding_all decide) (by with_unfolding_all decide)
  rw [show (8 : Nat) = 7 + 1 from rfl, hstep,
    (by with_unfolding_all decide :
      legal_moves (setMove (setMove initial_state 7) 4) = [0, 1, 2, 3, 5, 6, 8])]
  simp only [List.all_cons, List.all_nil, Bool.and_true]
  rw [canAvoidLoss_O_b7_l0,
    canAvoidLoss_O_b7_l1,
    canAvoidLoss_O_b7_l2,
    canAvoidLoss_O_b7_l3,
    canAvoidLoss_O_b7_l5,
    canAvoidLoss_O_b7_l6,
    canAvoidLoss_O_b7_l8]
  decide

/-- Certified O defense after X opens with move 7. -/
theorem canAvoidLoss_O_b7 :
    canAvoidLoss Player.O 9 (setMove initial_state 7) = true := by
  rw [show (9 : Nat) = 8 + 1 from rfl]
  exact canAvoidLoss_of_move Player.O 8 (setMove initial_state 7) 4
    (by with_unfolding_all decide) (by with_unfolding_all decide)
    (by with_unfolding_all decide) canAvoidLoss_O_b7_r

set_option maxRecDepth 10000 in
set_option maxHeartbeats 64000000 in
/-- Certified O defense: X opened 8, O replied 4, X continued 0. -/
theorem canAvoidLoss_O_b8_l0 :
    canAvoidLoss Player.O 7 (setMove (setMove (setMove initial_state 8) 4) 0) = true := by
  decide

set_option maxRecDepth 10000 in
set_option maxHeartbeats 64000000 in
/-- Certified O defense: X opened 8, O replied 4, X continued 1. -/
theorem canAvoidLoss_O_b8_l1 :
    canAvoidLoss Player.O 7 (setMove (setMove (setMove initial_state 8) 4) 1) = true := by
  decide

set_option maxRecDepth 10000 in
set_option maxHeartbeats 64000000 in
/-- Certified O defense: X opened 8, O replied 4, X continued 2. -/
theorem canAvoidLoss_O_b8_l2 :
    canAvoidLoss Player.O 7 (setMove (setMove (setMove initial_state 8) 4) 2) = true := by
  decide

set_option maxRecDepth 10000 in
set_option maxHeartbeats 64000000 in
/-- Certified O defense: X opened 8, O replied 4, X continued 3. -/
theorem canAvoidLoss_O_b8_l3 :
    canAvoidLoss Player.O 7 (setMove (setMove (setMove initial_state 8) 4) 3) = true := by
  decide

set_option maxRecDepth 10000 in
set_option maxHeartbeats 64000000 in
/-- Certified O defense: X opened 8, O replied 4, X continued 5. -/
theorem canAvoidLoss_O_b8_l5 :
    canAvoidLoss Player.O 7 (setMove (setMove (setMove initial_state 8) 4) 5) = true := by
  decide

set_option maxRecDepth 10000 in
set_option maxHeartbeats 64000000 in
/-- Certified O defense: X opened 8, O replied 4, X continued 6. -/
theorem canAvoidLoss_O_b8_l6 :
    canAvoidLoss Player.O 7 (setMove (setMove (setMove initial_state 8) 4) 6) = true := by
  decide

set_option maxRecDepth 10000 in
set_option maxHeartbeats 64000000 in
/-- Certified O defense: X opened 8, O replied 4, X continued 7. -/
theorem canAvoidLoss_O_b8_l7 :
    canAvoidLoss Player.O 7 (setMove (setMove (setMove initial_state 8) 4) 7) = true := by
  decide

/-- Certified O defense after X opens 8 and O replies 4. -/
theorem canAvoidLoss_O_b8_r :
    canAvoidLoss Player.O 8 (setMove (setMove initial_state 8) 4) = true := by
  have hstep := canAvoidLoss_opp_step Player.O 7 (setMove (setMove initial_state 8) 4)
    (by with_unfolding_all decide) (by with_unfolding_all decide)
  rw [show (8 : Nat) = 7 + 1 from rfl, hstep,
    (by with_unfolding_all decide :
      legal_moves (setMove (setMove initial_state 8) 4) = [0, 1, 2, 3, 5, 6, 7])]
  simp only [List.all_cons, List.all_nil, Bool.and_true]
  rw [canAvoidLoss_O_b8_l0,
    canAvoidLoss_O_b8_l1,
    canAvoidLoss_O_b8_l2,
    canAvoidLoss_O_b8_l3,
    canAvoidLoss_O_b8_l5,
    canAvoidLoss_O_b8_l6,
    canAvoidLoss_O_b8_l7]
  decide

/-- Certified O defense after X opens with move 8. -/
theorem canAvoidLoss_O_b8 :
    canAvoidLoss Player.O 9 (setMove initial_state 8) = true := by
  rw [show (9 : Nat) = 8 + 1 from rfl]
  exact canAvoidLoss_of_move Player.O 8 (setMove initial_state 8) 4
    (by with_unfolding_all decide) (by with_unfolding_all decide)
    (by with_unfolding_all decide) canAvoidLoss_O_b8_r

/-- Concrete certificate: O never loses tic-tac-toe. -/
theorem canAvoidLoss_O_initial : canAvoidLoss Player.O 10 initial_state = true := by
  have hstep := canAvoidLoss_opp_step Player.O 9 initial_state
    (by with_unfolding_all decide) (by with_unfolding_all decide)
  rw [show (10 : Nat) = 9 + 1 from rfl, hstep,
    (by with_unfolding_all decide :
      legal_moves initial_state = [0, 1, 2, 3, 4, 5, 6, 7, 8])]
  simp only [List.all_cons, List.all_nil, Bool.and_true]
  rw [canAvoidLoss_O_b0, canAvoidLoss_O_b1, canAvoidLoss_O_b2, canAvoidLoss_O_b3,
    canAvoidLoss_O_b4, canAvoidLoss_O_b5, canAvoidLoss_O_b6, canAvoidLoss_O_b7,
    canAvoidLoss_O_b8]
  decide

/-- Perfect play from the empty board is a draw. -/
theorem minimax_value_initial : minimax_value initial_state Player.X = 1/2 := by
  have hge : 1/2 ≤ minimax_value initial_state Player.X :=
    canAvoidLoss_ge 10 initial_state Player.X canAvoidLoss_X_initial
  have hle : minimax_value initial_state (other_player Player.O) ≤ 1/2 :=
    canAvoidLoss_le 10 initial_state Player.O canAvoidLoss_O_initial
  have hX : other_player Player.O = Player.X := rfl
  rw [hX] at hle
  linarith

/-- Recursion equation of `minimax_value` on non-terminal states. -/
theorem minimax_value_nonterminal (s : GameState) (p : Player)
    (h : terminal_value s p = none) :
    minimax_value s p =
      if s.player = p then
        ((legal_moves s).map (fun m => minimax_value (setMove s m) p)).foldl max 0
      else
        ((legal_moves s).map (fun m => minimax_value (setMove s m) p)).foldl min 1 := by
  have hnonterm : terminal_outcome s = none := by
    unfold terminal_value at h
    cases ho : terminal_outcome s with
    | none => rfl
    | some o => rw [ho] at h; cases o <;> exact Option.noConfusion h
  have hypos : 0 < countEmpty s.board := by
    rw [countEmpty, List.count_pos_iff_mem]
    exact empty_mem_of_nonterminal s hnonterm
  obtain ⟨k, hk⟩ : ∃ k, countEmpty s.board = k + 1 := ⟨countEmpty s.board - 1, by omega⟩
  rw [minimax_value, hk]
  unfold minimaxGo
  rw [h]
  dsimp only
  have hmap : (legal_moves s).map (fun m => minimaxGo k (setMove s m) p) =
      (legal_moves s).map (fun m => minimax_value (setMove s m) p) := by
    refine List.map_congr_left ?_
    intro m hm
    have hc := countEmpty_setMove s m hm
    exact minimaxGo_eq_minimax_value k _ p (by omega)
  rw [hmap]

/-- Minimax values lie in `[0, 1]` (wrapper on the fueled version). -/
theorem minimax_value_mem_unit (s : GameState) (p : Player) :
    0 ≤ minimax_value s p ∧ minimax_value s p ≤ 1 :=
  minimaxGo_mem_unit _ s p

/-- C1: `minimax_value(state, perspective)` returns the terminal value on
terminal states; on non-terminal states it is the maximum (when the mover
equals the perspective) or the minimum (otherwise) of `minimax_value` over
all states reachable by one legal move — expressed by membership in, and
being a bound of, the list of child values; and
`minimax_value(initial_state, X) = 1/2`. -/
theorem C1_minimax_value_spec :
    (∀ (s : GameState) (p : Player) (v : ℚ),
      terminal_value s p = some v → minimax_value s p = v) ∧
    (∀ (s : GameState) (p : Player), terminal_value s p = none →
      minimax_value s p ∈ (legal_moves s).map (fun m => minimax_value (setMove s m) p) ∧
      (s.player = p →
        ∀ w ∈ (legal_moves s).map (fun m => minimax_value (setMove s m) p),
          w ≤ minimax_value s p) ∧
      (s.player ≠ p →
        ∀ w ∈ (legal_moves s).map (fun m => minimax_value (setMove s m) p),
          minimax_value s p ≤ w)) ∧
    minimax_value initial_state Player.X = 1/2 := by
  refine ⟨?_, ?_, minimax_value_initial⟩
  · intro s p v h
    rw [minimax_value]
    exact minimaxGo_of_terminal _ s p v h
  · intro s p h
    have hnonterm : terminal_outcome s = none := by
      unfold terminal_value at h
      cases ho : terminal_outcome s with
      | none => rfl
      | some o => rw [ho] at h; cases o <;> exact Option.noConfusion h
    have hne : legal_moves s ≠ [] := legal_moves_ne_nil_of_nonterminal s hnonterm
    have hrec := minimax_value_nonterminal s p h
    set vals := (legal_moves s).map (fun m => minimax_value (setMove s m) p) with hvals
    have hvalsne : vals ≠ [] := by
      rw [hvals]
      simpa using hne
    have hnonneg : ∀ w ∈ vals, 0 ≤ w := by
      intro w hw
      obtain ⟨m, _, hm⟩ := List.mem_map.mp hw
      exact hm ▸ (minimax_value_mem_unit _ p).1
    have hleone : ∀ w ∈ vals, w ≤ 1 := by
      intro w hw
      obtain ⟨m, _, hm⟩ := List.mem_map.mp hw
      exact hm ▸ (minimax_value_mem_unit _ p).2
    by_cases hp : s.player = p
    · rw [if_pos hp] at hrec
      refine ⟨?_, fun _ w hw => hrec ▸ le_foldl_max hw 0, fun hcontra => absurd hp hcontra⟩
      rw [hrec]
      rcases foldl_max_choice vals 0 with hch | hch
      · obtain ⟨w0, hw0⟩ := List.exists_mem_of_ne_nil vals hvalsne
        have h1 : w0 ≤ vals.foldl max 0 := le_foldl_max hw0 0
        have h2 : 0 ≤ w0 := hnonneg w0 hw0
        have : vals.foldl max 0 = w0 := by rw [hch]; linarith [hch ▸ h1]
        rw [this]
        exact hw0
      · exact hch
    · rw [if_neg hp] at hrec
      refine ⟨?_, fun hcontra => absurd hcontra hp, fun _ w hw => hrec ▸ foldl_min_le hw 1⟩
      rw [hrec]
      rcases foldl_min_choice vals 1 with hch | hch
      · obtain ⟨w0, hw0⟩ := List.exists_mem_of_ne_nil vals hvalsne
        have h1 : vals.foldl min 1 ≤ w0 := foldl_min_le hw0 1
        have h2 : w0 ≤ 1 := hleone w0 hw0
        have : vals.foldl min 1 = w0 := by rw [hch]; linarith [hch ▸ h1]
        rw [this]
        exact hw0
      · exact hch

/-! ## `best_moves` and `choose_perfect_move` (`minimax.py`) -/

/-- `best_moves(state)`: every legal move scored by the minimax value of
its child from the parent mover's perspective, keeping all ties for the
maximal value (Python's `max` of a nonempty list is a head-seeded fold). -/
def best_moves (state : GameState) : List (Nat × ℚ) :=
  let perspective := state.player
  let scored := (legal_moves state).map
    (fun move => (move, minimax_value (setMove state move) perspective))
  match scored with
  | [] => []
  | hd :: tl =>
    let best_value := (tl.map (fun mv => mv.2)).foldl max hd.2
    (hd :: tl).filter (fun mv => mv.2 = best_value)

/-- `choose_perfect_move(state, rng)`: raises when no move is available,
else draws uniformly among `best_moves`. -/
def choose_perfect_move (state : GameState) (r : Rng) :
    Except String ((Nat × ℚ) × Rng) :=
  match best_moves state with
  | [] => Except.error "No legal moves available"
  | c :: rest => Except.ok (rngChoice (c :: rest) c r)

/-- Scored list of a state, shared by the `best_moves` lemmas. -/
theorem mem_scored_iff (s : GameState) (m : Nat) (v : ℚ) :
    (m, v) ∈ (legal_moves s).map (fun mv => (mv, minimax_value (setMove s mv) s.player)) ↔
      m ∈ legal_moves s ∧ v = minimax_value (setMove s m) s.player := by
  constructor
  · intro h
    obtain ⟨mv, hmem, hval⟩ := List.mem_map.mp h
    obtain ⟨h1, h2⟩ := Prod.mk.injEq _ _ _ _ ▸ hval
    exact ⟨h1 ▸ hmem, h2.symm ▸ (by rw [← h1])⟩
  · rintro ⟨hmem, hv⟩
    subst hv
    exact List.mem_map_of_mem _ hmem

/-- The board `X X . / O O . / . . .` with X to move. -/
def winInTwoState : GameState :=
  { board := [Cell.X, Cell.X, Cell.empty, Cell.O, Cell.O, Cell.empty,
      Cell.empty, Cell.empty, Cell.empty], player := Player.X }

set_option maxRecDepth 100000 in
set_option maxHeartbeats 64000000 in
/-- Concrete evaluation: on the win-in-two board the unique best move is the
immediately winning move 2, with value 1. -/
theorem best_moves_winInTwo : best_moves winInTwoState = [(2, (1 : ℚ))] := by
  with_unfolding_all decide

set_option maxRecDepth 100000 in
set_option maxHeartbeats 64000000 in
/-- C2: `best_moves(state)` returns exactly the moves whose child state has
the maximal minimax value from the parent mover's perspective, keeping
ties; on `X X . / O O . / . . .` with X to move it contains move 2 with
value 1, and `choose_perfect_move` returns value 1 whatever the random
source does. -/
theorem C2_best_moves_spec :
    (∀ s : GameState, legal_moves s ≠ [] →
      ∀ (m : Nat) (v : ℚ), (m, v) ∈ best_moves s ↔
        m ∈ legal_moves s ∧ v = minimax_value (setMove s m) s.player ∧
          ∀ mm ∈ legal_moves s, minimax_value (setMove s mm) s.player ≤ v) ∧
    (2, (1 : ℚ)) ∈ best_moves winInTwoState ∧
    (∀ r : Rng, (choose_perfect_move winInTwoState r).map (fun x => x.1.2) =
      Except.ok (1 : ℚ)) := by
  refine ⟨?_, ?_, ?_⟩
  · intro s hne m v
    unfold best_moves
    dsimp only
    cases hleg : legal_moves s with
    | nil => exact absurd hleg hne
    | cons a as =>
      rw [List.map_cons]
      dsimp only
      set f := fun mv => (mv, minimax_value (setMove s mv) s.player) with hf
      set scored := f a :: as.map f with hscored
      set best_value := ((as.map f).map (fun mv => mv.2)).foldl max (f a).2 with hbv
      have hmemscored : ∀ (mm : Nat) (w : ℚ), (mm, w) ∈ scored ↔
          mm ∈ a :: as ∧ w = minimax_value (setMove s mm) s.player := by
        intro mm w
        have h0 := mem_scored_iff s mm w
        rw [hleg, List.map_cons] at h0
        rw [hscored, hf]
        exact h0
      have hub : ∀ w ∈ scored, w.2 ≤ best_value := by
        intro w hw
        rcases List.mem_cons.mp hw with hw | hw
        · rw [hw, hbv]
          exact le_foldl_max_self _ _
        · exact le_foldl_max (List.mem_map_of_mem (fun mv => mv.2) hw) _
      have hmem_bv : ∃ w ∈ scored, w.2 = best_value := by
        rcases foldl_max_choice ((as.map f).map (fun mv => mv.2)) (f a).2 with hch | hch
        · exact ⟨f a, List.mem_cons_self _ _, hch.symm⟩
        · obtain ⟨w, hw, hws⟩ := List.mem_map.mp hch
          exact ⟨w, List.mem_cons_of_mem _ hw, hws⟩
      constructor
      · intro h
        obtain ⟨hmem, hval⟩ := List.mem_filter.mp h
        have hveq : v = best_value := by simpa using hval
        obtain ⟨hm1, hm2⟩ := (hmemscored m v).mp hmem
        refine ⟨hm1, hm2, ?_⟩
        intro mm hmm
        have : (mm, minimax_value (setMove s mm) s.player) ∈ scored :=
          (hmemscored mm _).mpr ⟨hmm, rfl⟩
        have := hub _ this
        simpa [hveq] using this
      · rintro ⟨hm1, hm2, hmax⟩
        have hmemsc : (m, v) ∈ scored := (hmemscored m v).mpr ⟨hm1, hm2⟩
        have hveq : v = best_value := by
          obtain ⟨w, hw, hwbv⟩ := hmem_bv
          obtain ⟨hw1, hw2⟩ := (hmemscored w.1 w.2).mp (by simpa using hw)
          have h1 : w.2 ≤ v := hw2 ▸ hmax w.1 hw1
          have h2 : v ≤ best_value := hub (m, v) hmemsc
          rw [← hwbv]
          exact le_antisymm (hwbv ▸ h2) h1
        refine List.mem_filter.mpr ⟨hmemsc, by simpa using hveq⟩
  · rw [best_moves_winInTwo]
    exact List.mem_singleton.mpr rfl
  · intro r
    have hne2 : best_moves winInTwoState ≠ [] := by
      rw [best_moves_winInTwo]
      exact List.cons_ne_nil _ _
    have hall : ∀ mv ∈ best_moves winInTwoState, mv.2 = (1 : ℚ) := by
      rw [best_moves_winInTwo]
      intro mv hmv
      rw [List.mem_singleton.mp hmv]
    cases hbm : best_moves winInTwoState with
    | nil => exact absurd hbm hne2
    | cons c rest =>
      unfold choose_perfect_move
      rw [hbm]
      have hmem : (rngChoice (c :: rest) c r).1 ∈ c :: rest :=
        rngChoice_mem _ _ _ (List.cons_ne_nil c rest)
      have hmem2 : (rngChoice (c :: rest) c r).1 ∈ best_moves winInTwoState := by
        rw [hbm]; exact hmem
      have hone := hall _ hmem2
      simp only [Except.map]
      rw [hone]

/-! ## C3, C7, C4 theorems -/

/-- C3 (amended): `legal_moves` lists every empty cell exactly once in
strictly ascending order; it is empty exactly when the board has no empty
cell (in particular on drawn terminal states). -/
theorem C3_legal_moves_spec (s : GameState) :
    (legal_moves s).Pairwise (· < ·) ∧
    (∀ m, m ∈ legal_moves s ↔ m < s.board.length ∧ cellAt s.board m = Cell.empty) ∧
    (legal_moves s = [] ↔ Cell.empty ∉ s.board) :=
  ⟨legal_moves_sorted s, fun m => mem_legal_moves s m, legal_moves_eq_nil_iff s⟩

/-- C3 counterexample: a terminal state (X has already won) with nonempty
`legal_moves` — terminal does not imply an empty move list. -/
theorem C3_counterexample :
    terminal_outcome { board := [Cell.X, Cell.X, Cell.X, Cell.O, Cell.O, Cell.empty,
        Cell.empty, Cell.empty, Cell.empty], player := Player.O } ≠ none ∧
    legal_moves { board := [Cell.X, Cell.X, Cell.X, Cell.O, Cell.O, Cell.empty,
        Cell.empty, Cell.empty, Cell.empty], player := Player.O } ≠ [] := by
  decide

/-- C7: `apply_move` errors exactly on an out-of-range index or an occupied
target cell; on success the result has the targeted cell set to the mover,
the mover flipped, and every other cell unchanged (states are immutable
values, so the input is unmodified by construction). -/
theorem C7_apply_move_spec (s : GameState) (m : Int) (hlen : s.board.length = 9) :
    ((∃ err, apply_move s m = Except.error err) ↔
      m < 0 ∨ 8 < m ∨ cellAt s.board m.toNat ≠ Cell.empty) ∧
    ∀ t, apply_move s m = Except.ok t →
      t.player = other_player s.player ∧ t.board.length = 9 ∧
      cellAt t.board m.toNat = s.player.cell ∧
      ∀ i : Nat, i ≠ m.toNat → cellAt t.board i = cellAt s.board i := by
  unfold apply_move
  by_cases h1 : m < 0 ∨ m > 8
  · rw [if_pos h1]
    refine ⟨⟨fun _ => ?_, fun _ => ⟨_, rfl⟩⟩, fun t ht => Except.noConfusion ht⟩
    rcases h1 with h | h
    · exact Or.inl h
    · exact Or.inr (Or.inl h)
  · rw [if_neg h1]
    by_cases h2 : cellAt s.board m.toNat ≠ Cell.empty
    · rw [if_pos h2]
      exact ⟨⟨fun _ => Or.inr (Or.inr h2), fun _ => ⟨_, rfl⟩⟩,
        fun t ht => Except.noConfusion ht⟩
    · rw [if_neg h2]
      push_neg at h1 h2
      constructor
      · constructor
        · rintro ⟨err, herr⟩
          exact Except.noConfusion herr
        · rintro (hc | hc | hc)
          · exact absurd hc (by omega)
          · exact absurd hc (by omega)
          · exact absurd h2 hc
      · intro t ht
        have hteq : t = setMove s m.toNat := by
          have := Except.ok.inj ht
          exact this.symm
        subst hteq
        have hmlt : m.toNat < s.board.length := by omega
        refine ⟨rfl, by rw [setMove_board_length, hlen], ?_, ?_⟩
        · rw [cellAt_setMove s m.toNat hmlt m.toNat, if_pos rfl]
        · intro i hi
          rw [cellAt_setMove s m.toNat hmlt i, if_neg hi]

/-- C4: every evaluator variant short-circuits to the exact terminal value
on terminal states, for every seed, cache content, and provider
configuration (the evaluator state is returned unchanged). -/
theorem C4_terminal_short_circuit :
    (∀ (e : RandomRolloutEvaluator) (s : GameState) (p : Player) (v : ℚ),
      terminal_value s p = some v →
        (e.evaluate s p).1 = v ∧ (e.evaluate s p).2 = e) ∧
    (∀ (e : LLMPositionEvaluator) (s : GameState) (p : Player) (v : ℚ),
      terminal_value s p = some v →
        (e.evaluate s p).1 = v ∧ (e.evaluate s p).2 = e) := by
  constructor
  · intro e s p v h
    unfold RandomRolloutEvaluator.evaluate
    rw [h]
    exact ⟨rfl, rfl⟩
  · intro e s p v h
    unfold LLMPositionEvaluator.evaluate
    rw [h]
    exact ⟨rfl, rfl⟩

/-- A full drawn board, used as a concrete terminal input in witnesses. -/
def drawState : GameState :=
  { board := [Cell.X, Cell.O, Cell.X, Cell.X, Cell.O, Cell.O, Cell.O, Cell.X, Cell.X],
    player := Player.X }

/-- A concrete all-zeros random stream. -/
def zeroRng : Rng :=
  { stream := fun _ => 0, pos := 0 }

/-- A concrete heuristic-provider evaluator used in concrete instances. -/
def sampleLLM : LLMPositionEvaluator :=
  { config :=
      { provider := "heuristic"
        model := "gpt-4.1-mini"
        api_key := ""
        heuristic_weight := 7/10
        rollout_samples := 4
        exp := (fun _ => 1)
        keyStream := (fun _ _ => 0)
        api := (fun _ _ => Except.error "transport") }
    cache := []
    stats := LLMStats.init }

/-- C4 witness at a concrete drawn board. -/
theorem C4_witness :
    ((RandomRolloutEvaluator.mk zeroRng).evaluate drawState Player.X).1 = 1/2 ∧
    (sampleLLM.evaluate drawState Player.X).1 = 1/2 := by
  have hterm : terminal_value drawState Player.X = some (1/2) := by
    with_unfolding_all decide
  exact ⟨(C4_terminal_short_circuit.1 (RandomRolloutEvaluator.mk zeroRng)
      drawState Player.X (1/2) hterm).1,
    (C4_terminal_short_circuit.2 sampleLLM drawState Player.X (1/2) hterm).1⟩

/-! ## C5: cache idempotence -/

/-- After `cache[key] = value`, looking up `key` yields `value`. -/
theorem lookup_dictInsert_self (c : List (String × ℚ)) (k : String) (v : ℚ) :
    (dictInsert c k v).lookup k = some v := by
  unfold dictInsert
  by_cases h : (c.lookup k).isSome
  · rw [if_pos h]
    induction c with
    | nil => simp [List.lookup] at h
    | cons kv rest ih =>
      obtain ⟨k1, v1⟩ := kv
      by_cases hk : k1 = k
      · subst hk
        rw [List.map_cons, if_pos rfl]
        simp [List.lookup]
      · have hk2 : (k == k1) = false := beq_eq_false_iff_ne.mpr (fun hc => hk hc.symm)
        rw [List.map_cons]
        simp only [if_neg hk]
        rw [List.lookup_cons, hk2]
        rw [List.lookup_cons, hk2] at h
        exact ih h
  · rw [if_neg h]
    induction c with
    | nil => simp [List.lookup]
    | cons kv rest ih =>
      obtain ⟨k1, v1⟩ := kv
      have hk2 : (k == k1) = false := by
        cases hb : k == k1 with
        | false => rfl
        | true =>
          rw [List.lookup_cons, hb] at h
          simp at h
      rw [List.cons_append, List.lookup_cons, hk2]
      rw [List.lookup_cons, hk2] at h
      exact ih h

/-- `_guided_rollout_average` only touches the statistics. -/
theorem guided_rollout_average_state (e : LLMPositionEvaluator) (s : GameState)
    (p : Player) (k : String) :
    (_guided_rollout_average e s p k).2.config = e.config ∧
    (_guided_rollout_average e s p k).2.cache = e.cache := by
  unfold _guided_rollout_average
  by_cases h : e.config.rollout_samples = 0
  · rw [if_pos h]
    exact ⟨rfl, rfl⟩
  · rw [if_neg h]
    exact ⟨rfl, rfl⟩

/-- `_heuristic_value` only touches the statistics. -/
theorem heuristic_value_state (e : LLMPositionEvaluator) (s : GameState)
    (p : Player) (k : String) :
    (_heuristic_value e s p k).2.config = e.config ∧
    (_heuristic_value e s p k).2.cache = e.cache := by
  unfold _heuristic_value
  exact guided_rollout_average_state e s p k

/-- A non-terminal `evaluate` call preserves the configuration and leaves
the returned value stored under its cache key. -/
theorem evaluate_cache_lookup (e : LLMPositionEvaluator) (s : GameState) (p : Player)
    (h : terminal_value s p = none) :
    (e.evaluate s p).2.config = e.config ∧
    (e.evaluate s p).2.cache.lookup (cacheKey e.config s p) = some (e.evaluate s p).1 := by
  unfold LLMPositionEvaluator.evaluate
  rw [h]
  dsimp only
  cases hc : e.cache.lookup (cacheKey e.config s p) with
  | some v =>
    exact ⟨rfl, by simpa using hc⟩
  | none =>
    dsimp only
    constructor
    · by_cases hcond : e.config.provider = "openai" ∧ e.config.api_key ≠ ""
      · rw [if_pos hcond]
        cases e.config.api s p with
        | ok q => rfl
        | error msg => exact (heuristic_value_state _ s p _).1
      · rw [if_neg hcond]
        refine (heuristic_value_state _ s p _).1.trans ?_
        by_cases h2 : e.config.provider = "openai" ∧ e.config.api_key = ""
        · rw [if_pos h2]
        · rw [if_neg h2]
    · exact lookup_dictInsert_self _ _ _

/-- A non-terminal `evaluate` call on a cached key is a pure cache hit. -/
theorem evaluate_hit (e : LLMPositionEvaluator) (s : GameState) (p : Player)
    (h : terminal_value s p = none) (v : ℚ)
    (hl : e.cache.lookup (cacheKey e.config s p) = some v) :
    e.evaluate s p =
      (v, { e with stats := { e.stats with cache_hits := e.stats.cache_hits + 1 } }) := by
  unfold LLMPositionEvaluator.evaluate
  rw [h]
  dsimp only
  rw [hl]

/-- C5 (amended to non-terminal states): two consecutive `evaluate` calls
with identical provider, model, root player and state return identical
values; the second call is a pure cache hit: it increments the cache-hit
counter and leaves the cache mapping unchanged. -/
theorem C5_cache_idempotent (e : LLMPositionEvaluator) (s : GameState) (p : Player)
    (h : terminal_value s p = none) :
    ((e.evaluate s p).2.evaluate s p).1 = (e.evaluate s p).1 ∧
    ((e.evaluate s p).2.evaluate s p).2.stats.cache_hits
      = (e.evaluate s p).2.stats.cache_hits + 1 ∧
    ((e.evaluate s p).2.evaluate s p).2.cache = (e.evaluate s p).2.cache := by
  obtain ⟨hcfg, hlook⟩ := evaluate_cache_lookup e s p h
  have hlook2 : (e.evaluate s p).2.cache.lookup
      (cacheKey (e.evaluate s p).2.config s p) = some (e.evaluate s p).1 := by
    rw [hcfg]
    exact hlook
  have hhit := evaluate_hit (e.evaluate s p).2 s p h (e.evaluate s p).1 hlook2
  rw [hhit]
  exact ⟨rfl, rfl, rfl⟩

/-- C5 counterexample: on a terminal state the claim fails — the second
call never reaches the cache, so the cache-hit counter is not incremented. -/
theorem C5_counterexample :
    ¬ (((sampleLLM.evaluate drawState Player.X).2.evaluate drawState Player.X).2.stats.cache_hits
      = (sampleLLM.evaluate drawState Player.X).2.stats.cache_hits + 1) := by
  with_unfolding_all decide

/-! ## C6: range of evaluator outputs -/

/-- A terminal node is neither selected through nor expanded: it is
evaluated and its counters updated. -/
theorem simulate_terminal {σ : Type} (a : MCTSAgent σ) (rp : Player) (n : Node) (r : Rng)
    (ev : σ) (hterm : n.is_terminal) :
    simulate a rp n r ev =
      (Node.mk n.state n.move n.children n.untried_moves (n.visits + 1)
        (n.value_sum + (a.evalFn ev n.state rp).1),
       (a.evalFn ev n.state rp).1, r, (a.evalFn ev n.state rp).2) := by
  unfold simulate
  rw [dif_neg (fun hcon => hcon.1 hterm), if_neg (fun hcon => hcon.1 hterm)]

/-- One iteration never changes the node's state or incoming move. -/
theorem simulate_state_move {σ : Type} (a : MCTSAgent σ) (rp : Player) (n : Node) (r : Rng)
    (ev : σ) :
    (simulate a rp n r ev).1.state = n.state ∧ (simulate a rp n r ev).1.move = n.move := by
  unfold simulate
  by_cases h1 : ¬n.is_terminal ∧ n.is_fully_expanded ∧ n.children ≠ []
  · rw [dif_pos h1]
    exact ⟨rfl, rfl⟩
  · rw [dif_neg h1]
    by_cases h2 : ¬n.is_terminal ∧ n.untried_moves ≠ []
    · rw [if_pos h2]
      exact ⟨rfl, rfl⟩
    · rw [if_neg h2]
      exact ⟨rfl, rfl⟩

/-- One iteration never removes children. -/
theorem simulate_children_le {σ : Type} (a : MCTSAgent σ) (rp : Player) (n : Node) (r : Rng)
    (ev : σ) :
    n.children.length ≤ (simulate a rp n r ev).1.children.length := by
  unfold simulate
  by_cases h1 : ¬n.is_terminal ∧ n.is_fully_expanded ∧ n.children ≠ []
  · rw [dif_pos h1]
    show n.children.length ≤ (n.children.set _ _).length
    rw [List.length_set]
  · rw [dif_neg h1]
    by_cases h2 : ¬n.is_terminal ∧ n.untried_moves ≠ []
    · rw [if_pos h2]
      show n.children.length ≤ (n.children ++ [_]).length
      rw [List.length_append]
      omega
    · rw [if_neg h2]
      exact le_refl _

/-- The loop never removes children. -/
theorem searchLoop_children_le {σ : Type} (a : MCTSAgent σ) (rp : Player) :
    ∀ (k : Nat) (n : Node) (r : Rng) (ev : σ),
      n.children.length ≤ (searchLoop a rp k n r ev).1.children.length := by
  intro k
  induction k with
  | zero => intro n r ev; exact le_refl _
  | succ i ih =>
    intro n r ev
    exact le_trans (simulate_children_le a rp n r ev) (ih _ _ _)

/-- Root invariant for C10: the root keeps its state, every explored child
carries a legal move of the root, and untried moves are legal. -/
def RootInv (s : GameState) (n : Node) : Prop :=
  n.state = s ∧
  (∀ c ∈ n.children, ∃ mv, c.move = some mv ∧ mv ∈ legal_moves s) ∧
  (∀ mv ∈ n.untried_moves, mv ∈ legal_moves s)

/-- One iteration preserves the root invariant. -/
theorem simulate_rootInv {σ : Type} (a : MCTSAgent σ) (rp : Player) {s : GameState}
    (n : Node) (r : Rng) (ev : σ) (h : RootInv s n) :
    RootInv s (simulate a rp n r ev).1 := by
  obtain ⟨hstate, hchildren, huntried⟩ := h
  unfold simulate
  by_cases h1 : ¬n.is_terminal ∧ n.is_fully_expanded ∧ n.children ≠ []
  · rw [dif_pos h1]
    refine ⟨hstate, ?_, huntried⟩
    intro c hc
    rcases List.mem_or_eq_of_mem_set hc with hc2 | hc2
    · exact hchildren c hc2
    · have hlt := selectChildIdx_lt a n rp r h1.2.2
      have hmem : n.children.getD (selectChildIdx a n rp r).1 default ∈ n.children := by
        rw [List.getD_eq_getElem _ _ hlt]
        exact List.getElem_mem hlt
      obtain ⟨mv, hmv, hmvleg⟩ := hchildren _ hmem
      refine ⟨mv, ?_, hmvleg⟩
      rw [hc2]
      show (simulate a rp _ _ _).1.move = some mv
      rw [(simulate_state_move a rp _ _ _).2]
      exact hmv
  · rw [dif_neg h1]
    by_cases h2 : ¬n.is_terminal ∧ n.untried_moves ≠ []
    · rw [if_pos h2]
      have hcm : (rngChoice n.untried_moves 0 r).1 ∈ n.untried_moves :=
        rngChoice_mem _ _ _ h2.2
      refine ⟨hstate, ?_, ?_⟩
      · intro c hc
        rcases List.mem_append.mp hc with hc2 | hc2
        · exact hchildren c hc2
        · have : c = Node.mk (setMove n.state (rngChoice n.untried_moves 0 r).1)
              (some (rngChoice n.untried_moves 0 r).1) []
              (legal_moves (setMove n.state (rngChoice n.untried_moves 0 r).1)) 1
              (a.evalFn ev (setMove n.state (rngChoice n.untried_moves 0 r).1) rp).1 := by
            simpa [Node.new] using hc2
          rw [this]
          exact ⟨_, rfl, huntried _ hcm⟩
      · intro mv hmv
        exact huntried mv (List.mem_of_mem_erase hmv)
    · rw [if_neg h2]
      exact ⟨hstate, hchildren, huntried⟩

/-- The loop preserves the root invariant. -/
theorem searchLoop_rootInv {σ : Type} (a : MCTSAgent σ) (rp : Player) {s : GameState} :
    ∀ (k : Nat) (n : Node) (r : Rng) (ev : σ), RootInv s n →
      RootInv s (searchLoop a rp k n r ev).1 := by
  intro k
  induction k with
  | zero => intro n r ev h; exact h
  | succ i ih =>
    intro n r ev h
    exact ih _ _ _ (simulate_rootInv a rp n r ev h)

/-- The first iteration on a fresh non-terminal root expands a child. -/
theorem simulate_fresh {σ : Type} (a : MCTSAgent σ) (rp : Player) (s : GameState)
    (r : Rng) (ev : σ) (hterm : terminal_outcome s = none) :
    (simulate a rp (Node.new s none) r ev).1.children ≠ [] := by
  unfold simulate
  have hnotterm : ¬(Node.new s none).is_terminal := by
    show ¬ (terminal_outcome s ≠ none)
    rw [hterm]
    simp
  have huntried : (Node.new s none).untried_moves = legal_moves s := rfl
  have hne : (Node.new s none).untried_moves ≠ [] := by
    rw [huntried]
    exact legal_moves_ne_nil_of_nonterminal s hterm
  have h1 : ¬(¬(Node.new s none).is_terminal ∧ (Node.new s none).is_fully_expanded ∧
      (Node.new s none).children ≠ []) := by
    intro hcon
    exact hcon.2.2 rfl
  rw [dif_neg h1, if_pos ⟨hnotterm, hne⟩]
  simp [Node.children, Node.new]

/-- `bestRanked` of a nonempty list exists. -/
theorem bestRanked_isSome : ∀ (l : List Node), l ≠ [] → ∃ b, bestRanked l = some b := by
  intro l hne
  cases l with
  | nil => exact absurd rfl hne
  | cons c rest =>
    unfold bestRanked
    cases hr : bestRanked rest with
    | none => exact ⟨c, rfl⟩
    | some b =>
      exact ⟨if c.visits < b.visits ∨ (c.visits = b.visits ∧ c.mean_value < b.mean_value)
        then b else c, rfl⟩

/-- `bestRanked` picks an element of the list. -/
theorem bestRanked_mem_of_some :
    ∀ {l : List Node} {b : Node}, bestRanked l = some b → b ∈ l := by
  intro l
  induction l with
  | nil =>
    intro b h
    exact absurd h (by simp [bestRanked])
  | cons c rest ih =>
    intro b h
    unfold bestRanked at h
    cases hr : bestRanked rest with
    | none =>
      rw [hr] at h
      simp only [Option.some.injEq] at h
      rw [← h]
      exact List.mem_cons_self _ _
    | some b0 =>
      rw [hr] at h
      simp only [Option.some.injEq] at h
      by_cases hc2 : c.visits < b0.visits ∨ (c.visits = b0.visits ∧ c.mean_value < b0.mean_value)
      · rw [if_pos hc2] at h
        exact h ▸ List.mem_cons_of_mem _ (ih hr)
      · rw [if_neg hc2] at h
        rw [← h]
        exact List.mem_cons_self _ _

/-- C10: with at least one iteration on a non-terminal root, the first
iteration expands a root child, so the final tree has children — the
random fallback of `choose_move` is unreachable — and the chosen move is a
legal move of the root. -/
theorem C10_choose_move_legal {σ : Type} (a : MCTSAgent σ) (s : GameState)
    (hterm : terminal_outcome s = none) (hiter : 1 ≤ a.iterations) :
    (searchLoop a s.player a.iterations (Node.new s none) a.rng a.evaluator).1.children ≠ [] ∧
    (a.choose_move s).1 ∈ legal_moves s := by
  obtain ⟨k, hk⟩ : ∃ k, a.iterations = k + 1 := ⟨a.iterations - 1, by omega⟩
  have hinv0 : RootInv s (Node.new s none) := by
    refine ⟨rfl, ?_, ?_⟩
    · intro c hc
      exact absurd hc (List.not_mem_nil c)
    · intro mv hmv
      exact hmv
  have hstep : searchLoop a s.player a.iterations (Node.new s none) a.rng a.evaluator =
      searchLoop a s.player k
        (simulate a s.player (Node.new s none) a.rng a.evaluator).1
        (simulate a s.player (Node.new s none) a.rng a.evaluator).2.2.1
        (simulate a s.player (Node.new s none) a.rng a.evaluator).2.2.2 := by
    rw [hk]
    rfl
  have hfresh := simulate_fresh a s.player s a.rng a.evaluator hterm
  have hlen1 : 1 ≤ (simulate a s.player (Node.new s none) a.rng a.evaluator).1.children.length :=
    Nat.one_le_iff_ne_zero.mpr (fun hz => hfresh (List.eq_nil_of_length_eq_zero hz))
  have hne : (searchLoop a s.player a.iterations (Node.new s none) a.rng a.evaluator).1.children
      ≠ [] := by
    rw [hstep]
    intro hcon
    have := searchLoop_children_le a s.player k
      (simulate a s.player (Node.new s none) a.rng a.evaluator).1
      (simulate a s.player (Node.new s none) a.rng a.evaluator).2.2.1
      (simulate a s.player (Node.new s none) a.rng a.evaluator).2.2.2
    rw [hcon] at this
    simp only [List.length_nil, Nat.le_zero] at this
    omega
  have hinv : RootInv s
      (searchLoop a s.player a.iterations (Node.new s none) a.rng a.evaluator).1 :=
    searchLoop_rootInv a s.player a.iterations (Node.new s none) a.rng a.evaluator hinv0
  refine ⟨hne, ?_⟩
  unfold MCTSAgent.choose_move
  rw [if_neg hne]
  obtain ⟨b, hb⟩ := bestRanked_isSome _ hne
  have hbmem := bestRanked_mem_of_some hb
  obtain ⟨mv, hmv, hmvleg⟩ := hinv.2.1 b hbmem
  rw [hb]
  simp only [Option.getD_some, hmv]
  exact hmvleg

/-- A board with no empty cell is terminal. -/
theorem terminal_of_no_empty (t : GameState) (h : Cell.empty ∉ t.board) :
    terminal_outcome t ≠ none := by
  unfold terminal_outcome
  cases hw : winner t.board with
  | some q => simp
  | none =>
    rw [if_neg h]
    simp

/-- After playing the only legal move, no legal move remains. -/
theorem legal_moves_setMove_nil (s : GameState) (m : Nat) (hlegal : legal_moves s = [m]) :
    legal_moves (setMove s m) = [] := by
  have hm := (mem_legal_moves s m).mp (by rw [hlegal]; exact List.mem_cons_self m [])
  rw [List.eq_nil_iff_forall_not_mem]
  intro i hi
  obtain ⟨hilt, hicell⟩ := (mem_legal_moves _ i).mp hi
  rw [setMove_board_length] at hilt
  rw [cellAt_setMove s m hm.1 i] at hicell
  by_cases him : i = m
  · rw [if_pos him] at hicell
    exact Player.cell_ne_empty s.player hicell
  · rw [if_neg him] at hicell
    have hmem : i ∈ legal_moves s := (mem_legal_moves s i).mpr ⟨hilt, hicell⟩
    rw [hlegal] at hmem
    simp only [List.mem_singleton] at hmem
    exact him hmem

/-- After playing the only legal move, the game is over. -/
theorem setMove_terminal (s : GameState) (m : Nat) (hlegal : legal_moves s = [m]) :
    terminal_outcome (setMove s m) ≠ none := by
  apply terminal_of_no_empty
  rw [← legal_moves_eq_nil_iff]
  exact legal_moves_setMove_nil s m hlegal

/-- `random.choice` on a singleton is forced. -/
theorem rngChoice_singleton {α : Type} (x d : α) (r : Rng) : (rngChoice [x] d r).1 = x := by
  show ([x].getD ((Rng.next r).1 % 1) d) = x
  rw [Nat.mod_one]
  rfl

/-- Shape invariant for C8: after `k ≥ 1` iterations from a root with a
single legal move `m`, the tree is the root with `k` visits and one
`k`-times-visited terminal child reached by `m`. -/
def SingleInv (s : GameState) (m : Nat) (k : Nat) (n : Node) : Prop :=
  ∃ q qc : ℚ, n = Node.mk s none [Node.mk (setMove s m) (some m) [] [] k qc] [] k q

/-- The first iteration expands the only move. -/
theorem simulate_single_base {σ : Type} (a : MCTSAgent σ) (r : Rng) (ev : σ)
    {s : GameState} {m : Nat} (hterm : terminal_outcome s = none)
    (hlegal : legal_moves s = [m]) :
    SingleInv s m 1 (simulate a s.player (Node.new s none) r ev).1 := by
  unfold simulate
  have hnotterm : ¬(Node.new s none).is_terminal := by
    show ¬ (terminal_outcome s ≠ none)
    rw [hterm]
    simp
  have hne : (Node.new s none).untried_moves ≠ [] := by
    show legal_moves s ≠ []
    rw [hlegal]
    simp
  have h1 : ¬(¬(Node.new s none).is_terminal ∧ (Node.new s none).is_fully_expanded ∧
      (Node.new s none).children ≠ []) := fun hcon => hcon.2.2 rfl
  rw [dif_neg h1, if_pos ⟨hnotterm, hne⟩]
  have hch : (rngChoice (Node.new s none).untried_moves 0 r).1 = m := by
    show (rngChoice (legal_moves s) 0 r).1 = m
    rw [hlegal]
    exact rngChoice_singleton m 0 r
  have hch2 : (rngChoice (legal_moves s) 0 r).1 = m := by
    rw [hlegal]
    exact rngChoice_singleton m 0 r
  refine ⟨0 + (a.evalFn ev (setMove s m) s.player).1,
    (a.evalFn ev (setMove s m) s.player).1, ?_⟩
  simp only [Node.new, Node.state, Node.move, Node.children, Node.untried_moves,
    Node.visits, Node.value_sum, List.nil_append]
  rw [hch2, legal_moves_setMove_nil s m hlegal, hlegal]
  simp [List.erase_cons_head]

/-- Later iterations descend into the single child, which is terminal, and
update both counters. -/
theorem simulate_single_step {σ : Type} (a : MCTSAgent σ) (r : Rng) (ev : σ)
    {s : GameState} {m : Nat} (hterm : terminal_outcome s = none)
    (hlegal : legal_moves s = [m]) (k : Nat) (n : Node)
    (hn : SingleInv s m k n) :
    SingleInv s m (k + 1) (simulate a s.player n r ev).1 := by
  obtain ⟨q, qc, rfl⟩ := hn
  have hcterm : (Node.mk (setMove s m) (some m) [] [] k qc).is_terminal := by
    show terminal_outcome (setMove s m) ≠ none
    exact setMove_terminal s m hlegal
  have h1 : ¬(Node.mk s none [Node.mk (setMove s m) (some m) [] [] k qc] [] k q).is_terminal ∧
      (Node.mk s none [Node.mk (setMove s m) (some m) [] [] k qc] [] k q).is_fully_expanded ∧
      (Node.mk s none [Node.mk (setMove s m) (some m) [] [] k qc] [] k q).children ≠ [] := by
    refine ⟨?_, rfl, by simp [Node.children]⟩
    show ¬ (terminal_outcome s ≠ none)
    rw [hterm]
    simp
  have hidx : (selectChildIdx a (Node.mk s none [Node.mk (setMove s m) (some m) [] [] k qc]
      [] k q) s.player r).1 = 0 := by
    have := selectChildIdx_lt a _ s.player r h1.2.2
    simp only [Node.children, List.length_singleton] at this
    omega
  unfold simulate
  rw [dif_pos h1]
  dsimp only
  rw [hidx]
  simp only [Node.state, Node.move, Node.children, Node.untried_moves, Node.visits,
    Node.value_sum, List.getD_cons_zero]
  rw [simulate_terminal a s.player (Node.mk (setMove s m) (some m) [] [] k qc) _ ev hcterm]
  exact ⟨q + (a.evalFn ev (Node.mk (setMove s m) (some m) [] [] k qc).state s.player).1,
    qc + (a.evalFn ev (Node.mk (setMove s m) (some m) [] [] k qc).state s.player).1, by
      simp only [Node.state, Node.move, Node.children, Node.untried_moves, Node.visits,
        Node.value_sum, List.set_cons_zero]⟩

/-- The invariant carried through the iteration loop. -/
theorem searchLoop_single {σ : Type} (a : MCTSAgent σ) {s : GameState} {m : Nat}
    (hterm : terminal_outcome s = none) (hlegal : legal_moves s = [m]) :
    ∀ (j k : Nat) (n : Node) (r : Rng) (ev : σ), SingleInv s m k n →
      SingleInv s m (k + j) (searchLoop a s.player j n r ev).1 := by
  intro j
  induction j with
  | zero =>
    intro k n r ev h
    exact h
  | succ i ih =>
    intro k n r ev h
    have hstep := simulate_single_step a r ev hterm hlegal k n h
    have hnext := ih (k + 1) (simulate a s.player n r ev).1
      (simulate a s.player n r ev).2.2.1 (simulate a s.player n r ev).2.2.2 hstep
    have harith : k + 1 + i = k + (i + 1) := by omega
    rw [harith] at hnext
    exact hnext

/-- C8: on a non-terminal root with exactly one legal move, `choose_move`
returns that move for every positive iteration budget, random source and
evaluator, and the chosen child's visit count equals the iteration budget. -/
theorem C8_single_move {σ : Type} (a : MCTSAgent σ) (s : GameState) (m : Nat)
    (hterm : terminal_outcome s = none) (hlegal : legal_moves s = [m])
    (hiter : 1 ≤ a.iterations) :
    (a.choose_move s).1 = m ∧
    ∃ c, (searchLoop a s.player a.iterations (Node.new s none) a.rng a.evaluator).1.children
        = [c] ∧ c.visits = a.iterations ∧ c.move = some m := by
  obtain ⟨k, hk⟩ : ∃ k, a.iterations = k + 1 := ⟨a.iterations - 1, by omega⟩
  have hstep : searchLoop a s.player a.iterations (Node.new s none) a.rng a.evaluator =
      searchLoop a s.player k
        (simulate a s.player (Node.new s none) a.rng a.evaluator).1
        (simulate a s.player (Node.new s none) a.rng a.evaluator).2.2.1
        (simulate a s.player (Node.new s none) a.rng a.evaluator).2.2.2 := by
    rw [hk]
    rfl
  have hbase := simulate_single_base a a.rng a.evaluator hterm hlegal
  have hloop := searchLoop_single a hterm hlegal k 1
    (simulate a s.player (Node.new s none) a.rng a.evaluator).1
    (simulate a s.player (Node.new s none) a.rng a.evaluator).2.2.1
    (simulate a s.player (Node.new s none) a.rng a.evaluator).2.2.2 hbase
  rw [← hstep] at hloop
  have harith : 1 + k = a.iterations := by omega
  rw [harith] at hloop
  obtain ⟨q, qc, hshape⟩ := hloop
  constructor
  · unfold MCTSAgent.choose_move
    have hne : (searchLoop a s.player a.iterations (Node.new s none) a.rng
        a.evaluator).1.children ≠ [] := by
      rw [hshape]
      simp [Node.children]
    rw [if_neg hne]
    have hbr : bestRanked (searchLoop a s.player a.iterations (Node.new s none) a.rng
        a.evaluator).1.children
        = some (Node.mk (setMove s m) (some m) [] [] a.iterations qc) := by
      rw [hshape]
      rfl
    rw [hbr]
    rfl
  · refine ⟨Node.mk (setMove s m) (some m) [] [] a.iterations qc, ?_, rfl, rfl⟩
    rw [hshape]
    rfl

/-! ## C9: determinism, and concrete witnesses -/

/-- C9: agents and rollout evaluators are deterministic functions of their
construction parameters: two independently constructed agents (or two
random-rollout evaluators) with the same evaluator transition, evaluator
state, iteration budget, exploration term and seeded random stream produce
identical move choices and identical evaluation values on every sequence of
input states. -/
theorem C9_determinism {σ : Type} (a1 a2 : MCTSAgent σ) (e1 e2 : RandomRolloutEvaluator)
    (hf : a1.evalFn = a2.evalFn) (hev : a1.evaluator = a2.evaluator)
    (hit : a1.iterations = a2.iterations) (hx : a1.exploreTerm = a2.exploreTerm)
    (hr : a1.rng = a2.rng) (hr2 : e1.rng = e2.rng) :
    (∀ ss : List GameState, runAgentSeq a1 ss = runAgentSeq a2 ss) ∧
    (∀ qs : List (GameState × Player), runRolloutSeq e1 qs = runRolloutSeq e2 qs) := by
  obtain ⟨f1, v1, i1, x1, r1⟩ := a1
  obtain ⟨f2, v2, i2, x2, r2⟩ := a2
  obtain ⟨er1⟩ := e1
  obtain ⟨er2⟩ := e2
  dsimp only at hf hev hit hx hr hr2
  subst hf hev hit hx hr hr2
  exact ⟨fun _ => rfl, fun _ => rfl⟩

/-- A constant-value evaluator transition used in concrete MCTS instances. -/
def constEval : Unit → GameState → Player → ℚ × Unit := fun u _ _ => (1/2, u)

/-- A concrete agent: constant evaluator, one iteration, zero random stream. -/
def sampleAgent : MCTSAgent Unit :=
  { evalFn := constEval
    evaluator := ()
    iterations := 1
    exploreTerm := fun _ _ => 1
    rng := zeroRng }

/-- A second, independently constructed agent with the same parameters. -/
def sampleAgent2 : MCTSAgent Unit :=
  { evalFn := constEval
    evaluator := ()
    iterations := 1
    exploreTerm := fun _ _ => 1
    rng := zeroRng }

/-- C9 witness: the two independently constructed agents, and two rollout
evaluators built over the same zero stream, agree on a concrete input
sequence. -/
theorem C9_witness :
    runAgentSeq sampleAgent [initial_state] = runAgentSeq sampleAgent2 [initial_state] ∧
    runRolloutSeq (RandomRolloutEvaluator.mk zeroRng) [(initial_state, Player.X)]
      = runRolloutSeq (RandomRolloutEvaluator.mk zeroRng) [(initial_state, Player.X)] :=
  ⟨(C9_determinism sampleAgent sampleAgent2 (RandomRolloutEvaluator.mk zeroRng)
      (RandomRolloutEvaluator.mk zeroRng) rfl rfl rfl rfl rfl rfl).1 [initial_state],
   (C9_determinism sampleAgent sampleAgent2 (RandomRolloutEvaluator.mk zeroRng)
      (RandomRolloutEvaluator.mk zeroRng) rfl rfl rfl rfl rfl rfl).2
      [(initial_state, Player.X)]⟩

/-- C7 witness: placing at cell 4 of the empty board succeeds with
the expected board update, and the error characterization holds there. -/
theorem C7_witness :
    ((∃ err, apply_move initial_state 4 = Except.error err) ↔
      (4 : Int) < 0 ∨ 8 < (4 : Int) ∨ cellAt initial_state.board (Int.toNat 4) ≠ Cell.empty) ∧
    (∀ t, apply_move initial_state 4 = Except.ok t →
      t.player = other_player initial_state.player ∧ t.board.length = 9 ∧
      cellAt t.board (Int.toNat 4) = initial_state.player.cell ∧
      ∀ i : Nat, i ≠ Int.toNat 4 → cellAt t.board i = cellAt initial_state.board i) :=
  C7_apply_move_spec initial_state 4 (by with_unfolding_all decide)

/-- C5 witness: on the (non-terminal) empty board, the second `evaluate`
call of the heuristic evaluator returns the same value, bumps the cache-hit
counter, and leaves the cache unchanged. -/
theorem C5_witness :
    ((sampleLLM.evaluate initial_state Player.X).2.evaluate initial_state Player.X).1
      = (sampleLLM.evaluate initial_state Player.X).1 ∧
    ((sampleLLM.evaluate initial_state Player.X).2.evaluate
        initial_state Player.X).2.stats.cache_hits
      = (sampleLLM.evaluate initial_state Player.X).2.stats.cache_hits + 1 ∧
    ((sampleLLM.evaluate initial_state Player.X).2.evaluate initial_state Player.X).2.cache
      = (sampleLLM.evaluate initial_state Player.X).2.cache :=
  C5_cache_idempotent sampleLLM initial_state Player.X (by with_unfolding_all decide)

/-- A non-terminal board with exactly one empty cell (index 8). -/
def oneMoveState : GameState :=
  { board := [Cell.X, Cell.O, Cell.X, Cell.X, Cell.O, Cell.O, Cell.O, Cell.X, Cell.empty],
    player := Player.X }

/-- C8 witness: on the one-empty-cell board, the concrete agent picks the
only legal move 8 and the single child carries all the visits. -/
theorem C8_witness :
    (sampleAgent.choose_move oneMoveState).1 = 8 ∧
    ∃ c, (searchLoop sampleAgent oneMoveState.player sampleAgent.iterations
        (Node.new oneMoveState none) sampleAgent.rng sampleAgent.evaluator).1.children = [c] ∧
      c.visits = sampleAgent.iterations ∧ c.move = some 8 :=
  C8_single_move sampleAgent oneMoveState 8 (by with_unfolding_all decide)
    (by with_unfolding_all decide) (by with_unfolding_all decide)

/-- C10 witness: the concrete agent on the empty board builds a tree with
root children and returns a legal move. -/
theorem C10_witness :
    (searchLoop sampleAgent initial_state.player sampleAgent.iterations
        (Node.new initial_state none) sampleAgent.rng sampleAgent.evaluator).1.children ≠ [] ∧
    (sampleAgent.choose_move initial_state).1 ∈ legal_moves initial_state :=
  C10_choose_move_legal sampleAgent initial_state (by with_unfolding_all decide)
    (by with_unfolding_all decide)
